import Mathlib

/-!
Verification development for the ui-chart charting core.

Shallow embedding of:
* `src/charting/data/ChartData.ts` (namespace `Charting.Data`),
* `src/charting/highlight/ChartHighlighter.ts` (namespace `Charting.Highlighter`),
* `src/charting/listener/BarLineChartTouchListener.ts` (namespace `Charting.Listener`).

JavaScript numbers are modelled by `ℚ` (exact rationals) except in the
highlighter, where the Euclidean distance `Math.hypot` forces `ℝ`.
`Number.MAX_VALUE`, used as a sentinel, is the exact value of the largest
finite IEEE-754 double, `(2^53 - 1) * 2^971`.
Fallible paths (a JavaScript `TypeError` from a member access on
`undefined`) are modelled with `Except Unit`.
-/

namespace Charting

/-- `AxisDependency` from `components/YAxis` (only the two enum values are
used by the embedded modules). -/
inductive AxisDependency where
  | LEFT
  | RIGHT
deriving DecidableEq, Repr

/-- The exact rational value of `Number.MAX_VALUE` (largest finite double). -/
def MAX_VALUE : ℚ := (2 ^ 53 - 1) * 2 ^ 971

theorem MAX_VALUE_pos : 0 < MAX_VALUE := by norm_num [MAX_VALUE]

namespace Data

/-- An entry of a data set: a domain point `(x, y)`. -/
structure Entry where
  x : ℚ
  y : ℚ
deriving DecidableEq, Repr

/-- Modelled from the spec: `DataSet` (file `data/DataSet.ts` is not among
the provided sources; only its callers are).  The spec describes it as a
series carrying its entries and an axis dependency, with running per-set
bounds that "always equal the min/max over all currently present entries"
(§3). -/
structure DataSet where
  entries : List Entry
  axisDependency : AxisDependency
deriving DecidableEq, Repr

namespace DataSet

/-- Modelled from the spec: the per-set running maximum y-value over the
currently present entries, with the `-Number.MAX_VALUE` sentinel when the
set is empty. -/
def getYMax (s : DataSet) : ℚ :=
  (s.entries.map Entry.y).foldl max (-MAX_VALUE)

/-- Modelled from the spec: the per-set running minimum y-value. -/
def getYMin (s : DataSet) : ℚ :=
  (s.entries.map Entry.y).foldl min MAX_VALUE

/-- Modelled from the spec: the per-set running maximum x-value. -/
def getXMax (s : DataSet) : ℚ :=
  (s.entries.map Entry.x).foldl max (-MAX_VALUE)

/-- Modelled from the spec: the per-set running minimum x-value. -/
def getXMin (s : DataSet) : ℚ :=
  (s.entries.map Entry.x).foldl min MAX_VALUE

def getAxisDependency (s : DataSet) : AxisDependency := s.axisDependency

def getEntryCount (s : DataSet) : ℕ := s.entries.length

/-- Modelled from the spec: `DataSet.addEntry` appends the entry to the end
of the list ("Entries are added to the end of the list") and reports
success. -/
def addEntry (s : DataSet) (e : Entry) : Bool × DataSet :=
  (true, { s with entries := s.entries ++ [e] })

/-- Modelled from the spec: `DataSet.removeEntry` removes the (first
occurrence of the) given entry when present and reports whether an entry
was removed. -/
def removeEntry (s : DataSet) (e : Entry) : Bool × DataSet :=
  if e ∈ s.entries then (true, { s with entries := s.entries.erase e })
  else (false, s)

/-- Modelled from the spec: `DataSet.getEntryForXValue` with the CLOSEST
rounding policy — "the entry nearest that x-value (policy: closest, ties
broken by scan order — first match wins)" (§4.2); `none` when the set has
no entries at all. -/
def getEntryForXValue (s : DataSet) (xValue : ℚ) : Option Entry :=
  s.entries.foldl
    (fun acc e =>
      match acc with
      | none => some e
      | some b => if |e.x - xValue| < |b.x - xValue| then some e else some b)
    none

end DataSet

/-- The state of a `ChartData` object: the data sets plus the eight
aggregate-bound fields (`ChartData.ts`, lines 5–32). -/
structure ChartData where
  mDataSets : List DataSet
  mYMax : ℚ
  mYMin : ℚ
  mXMax : ℚ
  mXMin : ℚ
  mLeftAxisMax : ℚ
  mLeftAxisMin : ℚ
  mRightAxisMax : ℚ
  mRightAxisMin : ℚ
deriving DecidableEq, Repr

/-- JavaScript array indexing `a[i]`: `undefined` (here `none`) for a
negative or too-large index. -/
def jsIndex (l : List DataSet) (i : ℤ) : Option DataSet :=
  if 0 ≤ i then l.get? i.toNat else none

/-- `getFirstLeft` (`ChartData.ts` lines 535–540): first data set with left
axis dependency. -/
def getFirstLeft (sets : List DataSet) : Option DataSet :=
  sets.find? (fun d => d.getAxisDependency = AxisDependency.LEFT)

/-- `getFirstRight` (`ChartData.ts` lines 548–553). -/
def getFirstRight (sets : List DataSet) : Option DataSet :=
  sets.find? (fun d => d.getAxisDependency = AxisDependency.RIGHT)

/-- The conditional assignment `if (cur < v) cur = v` used throughout the
min/max bookkeeping. -/
def updMax (cur v : ℚ) : ℚ := if cur < v then v else cur

/-- The conditional assignment `if (cur > v) cur = v`. -/
def updMin (cur v : ℚ) : ℚ := if cur > v then v else cur

/-- `calcMinMaxForDataSet` (`ChartData.ts` lines 408–422): expands the
aggregate bounds with the given data set's bounds. -/
def calcMinMaxForDataSet (cd : ChartData) (d : DataSet) : ChartData :=
  let cd :=
    { cd with
      mYMax := updMax cd.mYMax d.getYMax
      mYMin := updMin cd.mYMin d.getYMin
      mXMax := updMax cd.mXMax d.getXMax
      mXMin := updMin cd.mXMin d.getXMin }
  if d.getAxisDependency = AxisDependency.LEFT then
    { cd with
      mLeftAxisMax := updMax cd.mLeftAxisMax d.getYMax
      mLeftAxisMin := updMin cd.mLeftAxisMin d.getYMin }
  else
    { cd with
      mRightAxisMax := updMax cd.mRightAxisMax d.getYMax
      mRightAxisMin := updMin cd.mRightAxisMin d.getYMin }

/-- The body of the left-axis recomputation loop in `calcMinMax`
(`ChartData.ts` lines 135–141). -/
def leftLoopStep (cd : ChartData) (dataSet : DataSet) : ChartData :=
  if dataSet.getAxisDependency = AxisDependency.LEFT then
    { cd with
      mLeftAxisMin := updMin cd.mLeftAxisMin dataSet.getYMin
      mLeftAxisMax := updMax cd.mLeftAxisMax dataSet.getYMax }
  else cd

/-- The body of the right-axis recomputation loop in `calcMinMax`
(`ChartData.ts` lines 151–157). -/
def rightLoopStep (cd : ChartData) (dataSet : DataSet) : ChartData :=
  if dataSet.getAxisDependency = AxisDependency.RIGHT then
    { cd with
      mRightAxisMin := updMin cd.mRightAxisMin dataSet.getYMin
      mRightAxisMax := updMax cd.mRightAxisMax dataSet.getYMax }
  else cd

/-- The x/y part of `calcMinMax` (`ChartData.ts` lines 114–121): reset the
four x/y bounds and fold `calcMinMaxForDataSet` over all data sets. -/
def calcMinMaxXY (cd : ChartData) : ChartData :=
  let cd :=
    { cd with
      mYMax := -MAX_VALUE, mYMin := MAX_VALUE
      mXMax := -MAX_VALUE, mXMin := MAX_VALUE }
  cd.mDataSets.foldl calcMinMaxForDataSet cd

/-- The `// left axis` section of `calcMinMax` (`ChartData.ts` lines
128–142): seed the left bounds from the first left data set (when one
exists) and fold the left-axis loop. -/
def calcMinMaxLeftSection (cd : ChartData) : ChartData :=
  match getFirstLeft cd.mDataSets with
  | none => cd
  | some firstLeft =>
      let cd :=
        { cd with
          mLeftAxisMax := firstLeft.getYMax
          mLeftAxisMin := firstLeft.getYMin }
      cd.mDataSets.foldl leftLoopStep cd

/-- The `// right axis` section of `calcMinMax` (`ChartData.ts` lines
144–158). -/
def calcMinMaxRightSection (cd : ChartData) : ChartData :=
  match getFirstRight cd.mDataSets with
  | none => cd
  | some firstRight =>
      let cd :=
        { cd with
          mRightAxisMax := firstRight.getYMax
          mRightAxisMin := firstRight.getYMin }
      cd.mDataSets.foldl rightLoopStep cd

/-- `calcMinMax` (`ChartData.ts` lines 111–159): full recomputation of all
eight aggregate bounds.  The x/y loop runs `calcMinMaxForDataSet` (whose
per-axis updates are then overwritten by the reset and the dedicated
left/right sections, exactly as in the source). -/
def calcMinMax (cd : ChartData) : ChartData :=
  let cd := calcMinMaxXY cd
  let cd :=
    { cd with
      mLeftAxisMax := -MAX_VALUE, mLeftAxisMin := MAX_VALUE
      mRightAxisMax := -MAX_VALUE, mRightAxisMin := MAX_VALUE }
  calcMinMaxRightSection (calcMinMaxLeftSection cd)

/-- The `ChartData` constructor (`ChartData.ts` lines 51–54): store the
data sets and run `notifyDataChanged` (= `calcMinMax`). -/
def mkChartData (dataSets : List DataSet) : ChartData :=
  calcMinMax
    { mDataSets := dataSets
      mYMax := -MAX_VALUE, mYMin := MAX_VALUE
      mXMax := -MAX_VALUE, mXMin := MAX_VALUE
      mLeftAxisMax := -MAX_VALUE, mLeftAxisMin := MAX_VALUE
      mRightAxisMax := -MAX_VALUE, mRightAxisMin := MAX_VALUE }

/-- `getDataSetByIndex` (`ChartData.ts` lines 307–311). -/
def getDataSetByIndex (cd : ChartData) (index : ℤ) : Option DataSet :=
  if index < 0 ∨ (cd.mDataSets.length : ℤ) ≤ index then none
  else cd.mDataSets.get? index.toNat

/-- `calcMinMaxForEntry` (`ChartData.ts` lines 387–401). -/
def calcMinMaxForEntry (cd : ChartData) (e : Entry) (axis : AxisDependency) :
    ChartData :=
  let cd :=
    { cd with
      mYMax := updMax cd.mYMax e.y
      mYMin := updMin cd.mYMin e.y
      mXMax := updMax cd.mXMax e.x
      mXMin := updMin cd.mXMin e.x }
  if axis = AxisDependency.LEFT then
    { cd with
      mLeftAxisMax := updMax cd.mLeftAxisMax e.y
      mLeftAxisMin := updMin cd.mLeftAxisMin e.y }
  else
    { cd with
      mRightAxisMax := updMax cd.mRightAxisMax e.y
      mRightAxisMin := updMin cd.mRightAxisMin e.y }

/-- `addEntry` (`ChartData.ts` lines 369–379): append the entry to the
data set at the index (when the index is in range), then expand the bounds
incrementally with `calcMinMaxForEntry`. -/
def addEntry (cd : ChartData) (e : Entry) (dataSetIndex : ℤ) : ChartData :=
  if dataSetIndex < (cd.mDataSets.length : ℤ) ∧ 0 ≤ dataSetIndex then
    match jsIndex cd.mDataSets dataSetIndex with
    | none => cd
    | some set =>
        let res := set.addEntry e
        if res.1 then
          let cd :=
            { cd with
              mDataSets := cd.mDataSets.set dataSetIndex.toNat res.2 }
          calcMinMaxForEntry cd e set.getAxisDependency
        else cd
  else cd

/-- `addDataSet` (`ChartData.ts` lines 318–324). -/
def addDataSet (cd : ChartData) (d : Option DataSet) : ChartData :=
  match d with
  | none => cd
  | some d =>
      let cd := calcMinMaxForDataSet cd d
      { cd with mDataSets := cd.mDataSets ++ [d] }

/-- `removeDataSet` (`ChartData.ts` lines 333–345). -/
def removeDataSet (cd : ChartData) (d : Option DataSet) : Bool × ChartData :=
  match d with
  | none => (false, cd)
  | some d =>
      match cd.mDataSets.indexOf? d with
      | none => (false, cd)
      | some index =>
          (true, calcMinMax { cd with mDataSets := cd.mDataSets.eraseIdx index })

/-- `removeEntry` (`ChartData.ts` lines 430–446).  Note the source checks
only `dataSetIndex >= length`; a negative index reaches the raw array
lookup, which yields `undefined` and so the `set != null` test fails and
`false` is returned. -/
def removeEntry (cd : ChartData) (e : Option Entry) (dataSetIndex : ℤ) :
    Bool × ChartData :=
  if e = none ∨ (cd.mDataSets.length : ℤ) ≤ dataSetIndex then (false, cd)
  else
    match jsIndex cd.mDataSets dataSetIndex, e with
    | some set, some e =>
        let res := set.removeEntry e
        if res.1 then
          (true,
            calcMinMax
              { cd with mDataSets := cd.mDataSets.set dataSetIndex.toNat res.2 })
        else (false, cd)
    | _, _ => (false, cd)

/-- `removeEntryForXValue` (`ChartData.ts` lines 457–466).  The source
checks only `dataSetIndex >= length` before indexing; for a negative index
the lookup yields `undefined` and the call
`dataSet.getEntryForXValue(...)` raises a `TypeError`, modelled as
`Except.error`. -/
def removeEntryForXValue (cd : ChartData) (xValue : ℚ) (dataSetIndex : ℤ) :
    Except Unit (Bool × ChartData) :=
  if (cd.mDataSets.length : ℤ) ≤ dataSetIndex then Except.ok (false, cd)
  else
    match jsIndex cd.mDataSets dataSetIndex with
    | none => Except.error ()
    | some dataSet =>
        match dataSet.getEntryForXValue xValue with
        | none => Except.ok (false, cd)
        | some e => Except.ok (removeEntry cd (some e) dataSetIndex)

/-- `clearValues` (`ChartData.ts` lines 657–662). -/
def clearValues (cd : ChartData) : ChartData :=
  calcMinMax { cd with mDataSets := [] }

/-- `getEntryCount` (`ChartData.ts` lines 680–688): total entry count over
all data sets. -/
def getEntryCount (cd : ChartData) : ℕ :=
  cd.mDataSets.foldl (fun count set => count + set.getEntryCount) 0

/-- `getYMin(axis)` (`ChartData.ts` lines 179–192); `none` models the
omitted optional argument. -/
def getYMin (cd : ChartData) (axis : Option AxisDependency) : ℚ :=
  match axis with
  | none => cd.mYMin
  | some a =>
      if a = AxisDependency.LEFT then
        if cd.mLeftAxisMin = MAX_VALUE then cd.mRightAxisMin else cd.mLeftAxisMin
      else
        if cd.mRightAxisMin = MAX_VALUE then cd.mLeftAxisMin else cd.mRightAxisMin

/-- `getYMax(axis)` (`ChartData.ts` lines 200–213). -/
def getYMax (cd : ChartData) (axis : Option AxisDependency) : ℚ :=
  match axis with
  | none => cd.mYMax
  | some a =>
      if a = AxisDependency.LEFT then
        if cd.mLeftAxisMax = -MAX_VALUE then cd.mRightAxisMax else cd.mLeftAxisMax
      else
        if cd.mRightAxisMax = -MAX_VALUE then cd.mLeftAxisMax else cd.mRightAxisMax

/-! ### Specification-side bound functions

The exact minima/maxima over all currently present entries, clamped at the
`±MAX_VALUE` sentinels (the sentinel is returned when no entry is present,
exactly as the initial field values). -/

/-- All entries across all data sets, in data-set order. -/
def allEntries (sets : List DataSet) : List Entry :=
  (sets.map DataSet.entries).flatten

/-- All entries of the data sets with the given axis dependency. -/
def entriesOn (a : AxisDependency) (sets : List DataSet) : List Entry :=
  (((sets.filter (fun d => d.getAxisDependency = a)).map DataSet.entries)).flatten

def specYMax (sets : List DataSet) : ℚ :=
  ((allEntries sets).map Entry.y).foldl max (-MAX_VALUE)

def specYMin (sets : List DataSet) : ℚ :=
  ((allEntries sets).map Entry.y).foldl min MAX_VALUE

def specXMax (sets : List DataSet) : ℚ :=
  ((allEntries sets).map Entry.x).foldl max (-MAX_VALUE)

def specXMin (sets : List DataSet) : ℚ :=
  ((allEntries sets).map Entry.x).foldl min MAX_VALUE

def specAxisYMax (a : AxisDependency) (sets : List DataSet) : ℚ :=
  ((entriesOn a sets).map Entry.y).foldl max (-MAX_VALUE)

def specAxisYMin (a : AxisDependency) (sets : List DataSet) : ℚ :=
  ((entriesOn a sets).map Entry.y).foldl min MAX_VALUE

/-- The C8 invariant: every aggregate bound field of the container equals
the exact extremum over the entries currently present (with the sentinel
initial values when the relevant entry collection is empty). -/
def boundsCorrect (cd : ChartData) : Prop :=
  cd.mYMax = specYMax cd.mDataSets ∧
  cd.mYMin = specYMin cd.mDataSets ∧
  cd.mXMax = specXMax cd.mDataSets ∧
  cd.mXMin = specXMin cd.mDataSets ∧
  cd.mLeftAxisMax = specAxisYMax AxisDependency.LEFT cd.mDataSets ∧
  cd.mLeftAxisMin = specAxisYMin AxisDependency.LEFT cd.mDataSets ∧
  cd.mRightAxisMax = specAxisYMax AxisDependency.RIGHT cd.mDataSets ∧
  cd.mRightAxisMin = specAxisYMin AxisDependency.RIGHT cd.mDataSets

/-! ### Fold lemmas over `max`/`min` with a clamping seed -/

lemma foldl_max_exch (l : List ℚ) : ∀ a b : ℚ,
    l.foldl max (max a b) = max a (l.foldl max b) := by
  induction l with
  | nil => intro a b; rfl
  | cons x xs ih =>
      intro a b
      simp only [List.foldl_cons, max_assoc]
      exact ih a (max b x)

lemma foldl_min_exch (l : List ℚ) : ∀ a b : ℚ,
    l.foldl min (min a b) = min a (l.foldl min b) := by
  induction l with
  | nil => intro a b; rfl
  | cons x xs ih =>
      intro a b
      simp only [List.foldl_cons, min_assoc]
      exact ih a (min b x)

lemma le_foldl_max (c : ℚ) (l : List ℚ) : c ≤ l.foldl max c := by
  have h := foldl_max_exch l c c
  rw [max_self] at h
  rw [h]; exact le_max_left _ _

lemma foldl_min_le (c : ℚ) (l : List ℚ) : l.foldl min c ≤ c := by
  have h := foldl_min_exch l c c
  rw [min_self] at h
  rw [h]; exact min_le_left _ _

lemma foldl_max_out (l : List ℚ) (X v : ℚ) :
    l.foldl max (max X v) = max (l.foldl max X) v := by
  rw [max_comm X v, foldl_max_exch, max_comm]

lemma foldl_min_out (l : List ℚ) (X v : ℚ) :
    l.foldl min (min X v) = min (l.foldl min X) v := by
  rw [min_comm X v, foldl_min_exch, min_comm]

lemma foldl_max_absorb {c X : ℚ} (h : c ≤ X) (l : List ℚ) :
    l.foldl max X = max X (l.foldl max c) := by
  have : X = max X c := (max_eq_left h).symm
  rw [this, foldl_max_exch, max_eq_left h]

lemma foldl_min_absorb {c X : ℚ} (h : X ≤ c) (l : List ℚ) :
    l.foldl min X = min X (l.foldl min c) := by
  have : X = min X c := (min_eq_left h).symm
  rw [this, foldl_min_exch, min_eq_left h]

lemma foldl_max_append2 (c : ℚ) (l1 l2 : List ℚ) :
    (l1 ++ l2).foldl max c = max (l1.foldl max c) (l2.foldl max c) := by
  rw [List.foldl_append]
  exact foldl_max_absorb (le_foldl_max c l1) l2

lemma foldl_min_append2 (c : ℚ) (l1 l2 : List ℚ) :
    (l1 ++ l2).foldl min c = min (l1.foldl min c) (l2.foldl min c) := by
  rw [List.foldl_append]
  exact foldl_min_absorb (foldl_min_le c l1) l2

lemma foldl_max_flatten2 (c : ℚ) (L : List (List ℚ)) :
    (L.map (fun l => l.foldl max c)).foldl max c = L.flatten.foldl max c := by
  induction L with
  | nil => rfl
  | cons l rest ih =>
      simp only [List.map_cons, List.foldl_cons, List.flatten_cons]
      rw [foldl_max_append2, ← ih]
      rw [max_comm c (l.foldl max c), foldl_max_exch, max_comm]

lemma foldl_min_flatten2 (c : ℚ) (L : List (List ℚ)) :
    (L.map (fun l => l.foldl min c)).foldl min c = L.flatten.foldl min c := by
  induction L with
  | nil => rfl
  | cons l rest ih =>
      simp only [List.map_cons, List.foldl_cons, List.flatten_cons]
      rw [foldl_min_append2, ← ih]
      rw [min_comm c (l.foldl min c), foldl_min_exch, min_comm]

/-- A fold with a guarded step equals the fold over the filtered list. -/
lemma foldl_filter_if {α β : Type} (p : α → Bool) (f : β → α → β) (l : List α) :
    ∀ init, l.foldl (fun x y => if p y then f x y else x) init
      = (l.filter p).foldl f init := by
  induction l with
  | nil => intro init; rfl
  | cons a l ih =>
      intro init
      simp only [List.foldl_cons, List.filter_cons]
      by_cases h : p a <;> simp [h, ih]

/-- When `find?` returns a witness, the filtered list starts with it. -/
lemma filter_cons_of_find? {α : Type} (p : α → Bool) :
    ∀ {l : List α} {f : α}, l.find? p = some f → ∃ rest, l.filter p = f :: rest := by
  intro l
  induction l with
  | nil => intro f h; simp [List.find?] at h
  | cons a l ih =>
      intro f h
      by_cases ha : p a
      · rw [List.find?_cons_of_pos _ ha] at h
        obtain rfl : a = f := by injection h
        exact ⟨l.filter p, by rw [List.filter_cons_of_pos ha]⟩
      · rw [List.find?_cons_of_neg _ (by simpa using ha)] at h
        obtain ⟨rest, hrest⟩ := ih h
        exact ⟨rest, by rw [List.filter_cons_of_neg (by simpa using ha), hrest]⟩

/-! ### Projection lemmas for the bookkeeping steps -/

lemma updMax_eq (a b : ℚ) : updMax a b = max a b := by
  unfold updMax
  rcases lt_or_le a b with h | h
  · rw [if_pos h, max_eq_right h.le]
  · rw [if_neg (not_lt.mpr h), max_eq_left h]

lemma updMin_eq (a b : ℚ) : updMin a b = min a b := by
  unfold updMin
  rcases lt_or_le b a with h | h
  · rw [if_pos h, min_eq_right h.le]
  · rw [if_neg (not_lt.mpr h), min_eq_left h]

lemma cmmds_mDataSets (cd : ChartData) (d : DataSet) :
    (calcMinMaxForDataSet cd d).mDataSets = cd.mDataSets := by
  simp only [calcMinMaxForDataSet]; split <;> rfl

lemma cmmds_mYMax (cd : ChartData) (d : DataSet) :
    (calcMinMaxForDataSet cd d).mYMax = max cd.mYMax d.getYMax := by
  simp only [calcMinMaxForDataSet]; split <;> simp [updMax_eq]

lemma cmmds_mYMin (cd : ChartData) (d : DataSet) :
    (calcMinMaxForDataSet cd d).mYMin = min cd.mYMin d.getYMin := by
  simp only [calcMinMaxForDataSet]; split <;> simp [updMin_eq]

lemma cmmds_mXMax (cd : ChartData) (d : DataSet) :
    (calcMinMaxForDataSet cd d).mXMax = max cd.mXMax d.getXMax := by
  simp only [calcMinMaxForDataSet]; split <;> simp [updMax_eq]

lemma cmmds_mXMin (cd : ChartData) (d : DataSet) :
    (calcMinMaxForDataSet cd d).mXMin = min cd.mXMin d.getXMin := by
  simp only [calcMinMaxForDataSet]; split <;> simp [updMin_eq]

lemma cmmds_mLeftAxisMax (cd : ChartData) (d : DataSet) :
    (calcMinMaxForDataSet cd d).mLeftAxisMax =
      if d.getAxisDependency = AxisDependency.LEFT then
        max cd.mLeftAxisMax d.getYMax
      else cd.mLeftAxisMax := by
  simp only [calcMinMaxForDataSet]; split <;> simp_all [updMax_eq]

lemma cmmds_mLeftAxisMin (cd : ChartData) (d : DataSet) :
    (calcMinMaxForDataSet cd d).mLeftAxisMin =
      if d.getAxisDependency = AxisDependency.LEFT then
        min cd.mLeftAxisMin d.getYMin
      else cd.mLeftAxisMin := by
  simp only [calcMinMaxForDataSet]; split <;> simp_all [updMin_eq]

lemma cmmds_mRightAxisMax (cd : ChartData) (d : DataSet) :
    (calcMinMaxForDataSet cd d).mRightAxisMax =
      if d.getAxisDependency = AxisDependency.LEFT then cd.mRightAxisMax
      else max cd.mRightAxisMax d.getYMax := by
  simp only [calcMinMaxForDataSet]; split <;> simp_all [updMax_eq]

lemma cmmds_mRightAxisMin (cd : ChartData) (d : DataSet) :
    (calcMinMaxForDataSet cd d).mRightAxisMin =
      if d.getAxisDependency = AxisDependency.LEFT then cd.mRightAxisMin
      else min cd.mRightAxisMin d.getYMin := by
  simp only [calcMinMaxForDataSet]; split <;> simp_all [updMin_eq]

lemma leftLoopStep_mLeftAxisMax (cd : ChartData) (d : DataSet) :
    (leftLoopStep cd d).mLeftAxisMax =
      if d.getAxisDependency = AxisDependency.LEFT then
        max cd.mLeftAxisMax d.getYMax
      else cd.mLeftAxisMax := by
  simp only [leftLoopStep]; split <;> simp_all [updMax_eq]

lemma leftLoopStep_mLeftAxisMin (cd : ChartData) (d : DataSet) :
    (leftLoopStep cd d).mLeftAxisMin =
      if d.getAxisDependency = AxisDependency.LEFT then
        min cd.mLeftAxisMin d.getYMin
      else cd.mLeftAxisMin := by
  simp only [leftLoopStep]; split <;> simp_all [updMin_eq]

lemma leftLoopStep_others (cd : ChartData) (d : DataSet) :
    (leftLoopStep cd d).mDataSets = cd.mDataSets ∧
    (leftLoopStep cd d).mYMax = cd.mYMax ∧
    (leftLoopStep cd d).mYMin = cd.mYMin ∧
    (leftLoopStep cd d).mXMax = cd.mXMax ∧
    (leftLoopStep cd d).mXMin = cd.mXMin ∧
    (leftLoopStep cd d).mRightAxisMax = cd.mRightAxisMax ∧
    (leftLoopStep cd d).mRightAxisMin = cd.mRightAxisMin := by
  simp only [leftLoopStep]; split <;> simp

lemma rightLoopStep_mRightAxisMax (cd : ChartData) (d : DataSet) :
    (rightLoopStep cd d).mRightAxisMax =
      if d.getAxisDependency = AxisDependency.RIGHT then
        max cd.mRightAxisMax d.getYMax
      else cd.mRightAxisMax := by
  simp only [rightLoopStep]; split <;> simp_all [updMax_eq]

lemma rightLoopStep_mRightAxisMin (cd : ChartData) (d : DataSet) :
    (rightLoopStep cd d).mRightAxisMin =
      if d.getAxisDependency = AxisDependency.RIGHT then
        min cd.mRightAxisMin d.getYMin
      else cd.mRightAxisMin := by
  simp only [rightLoopStep]; split <;> simp_all [updMin_eq]

lemma rightLoopStep_others (cd : ChartData) (d : DataSet) :
    (rightLoopStep cd d).mDataSets = cd.mDataSets ∧
    (rightLoopStep cd d).mYMax = cd.mYMax ∧
    (rightLoopStep cd d).mYMin = cd.mYMin ∧
    (rightLoopStep cd d).mXMax = cd.mXMax ∧
    (rightLoopStep cd d).mXMin = cd.mXMin ∧
    (rightLoopStep cd d).mLeftAxisMax = cd.mLeftAxisMax ∧
    (rightLoopStep cd d).mLeftAxisMin = cd.mLeftAxisMin := by
  simp only [rightLoopStep]; split <;> simp

lemma cmmfe_mDataSets (cd : ChartData) (e : Entry) (a : AxisDependency) :
    (calcMinMaxForEntry cd e a).mDataSets = cd.mDataSets := by
  simp only [calcMinMaxForEntry]; split <;> rfl

lemma cmmfe_mYMax (cd : ChartData) (e : Entry) (a : AxisDependency) :
    (calcMinMaxForEntry cd e a).mYMax = max cd.mYMax e.y := by
  simp only [calcMinMaxForEntry]; split <;> simp [updMax_eq]

lemma cmmfe_mYMin (cd : ChartData) (e : Entry) (a : AxisDependency) :
    (calcMinMaxForEntry cd e a).mYMin = min cd.mYMin e.y := by
  simp only [calcMinMaxForEntry]; split <;> simp [updMin_eq]

lemma cmmfe_mXMax (cd : ChartData) (e : Entry) (a : AxisDependency) :
    (calcMinMaxForEntry cd e a).mXMax = max cd.mXMax e.x := by
  simp only [calcMinMaxForEntry]; split <;> simp [updMax_eq]

lemma cmmfe_mXMin (cd : ChartData) (e : Entry) (a : AxisDependency) :
    (calcMinMaxForEntry cd e a).mXMin = min cd.mXMin e.x := by
  simp only [calcMinMaxForEntry]; split <;> simp [updMin_eq]

lemma cmmfe_mLeftAxisMax (cd : ChartData) (e : Entry) (a : AxisDependency) :
    (calcMinMaxForEntry cd e a).mLeftAxisMax =
      if a = AxisDependency.LEFT then max cd.mLeftAxisMax e.y
      else cd.mLeftAxisMax := by
  simp only [calcMinMaxForEntry]; split <;> simp_all [updMax_eq]

lemma cmmfe_mLeftAxisMin (cd : ChartData) (e : Entry) (a : AxisDependency) :
    (calcMinMaxForEntry cd e a).mLeftAxisMin =
      if a = AxisDependency.LEFT then min cd.mLeftAxisMin e.y
      else cd.mLeftAxisMin := by
  simp only [calcMinMaxForEntry]; split <;> simp_all [updMin_eq]

lemma cmmfe_mRightAxisMax (cd : ChartData) (e : Entry) (a : AxisDependency) :
    (calcMinMaxForEntry cd e a).mRightAxisMax =
      if a = AxisDependency.LEFT then cd.mRightAxisMax
      else max cd.mRightAxisMax e.y := by
  simp only [calcMinMaxForEntry]; split <;> simp_all [updMax_eq]

lemma cmmfe_mRightAxisMin (cd : ChartData) (e : Entry) (a : AxisDependency) :
    (calcMinMaxForEntry cd e a).mRightAxisMin =
      if a = AxisDependency.LEFT then cd.mRightAxisMin
      else min cd.mRightAxisMin e.y := by
  simp only [calcMinMaxForEntry]; split <;> simp_all [updMin_eq]

/-! ### Characterization of the folds inside `calcMinMax` -/

lemma foldl_cmmds_mDataSets (sets : List DataSet) : ∀ cd : ChartData,
    (sets.foldl calcMinMaxForDataSet cd).mDataSets = cd.mDataSets := by
  induction sets with
  | nil => intro cd; rfl
  | cons d rest ih =>
      intro cd
      simp only [List.foldl_cons, ih, cmmds_mDataSets]

lemma foldl_cmmds_mYMax (sets : List DataSet) : ∀ cd : ChartData,
    (sets.foldl calcMinMaxForDataSet cd).mYMax =
      sets.foldl (fun a d => max a d.getYMax) cd.mYMax := by
  induction sets with
  | nil => intro cd; rfl
  | cons d rest ih =>
      intro cd
      simp only [List.foldl_cons, ih, cmmds_mYMax]

lemma foldl_cmmds_mYMin (sets : List DataSet) : ∀ cd : ChartData,
    (sets.foldl calcMinMaxForDataSet cd).mYMin =
      sets.foldl (fun a d => min a d.getYMin) cd.mYMin := by
  induction sets with
  | nil => intro cd; rfl
  | cons d rest ih =>
      intro cd
      simp only [List.foldl_cons, ih, cmmds_mYMin]

lemma foldl_cmmds_mXMax (sets : List DataSet) : ∀ cd : ChartData,
    (sets.foldl calcMinMaxForDataSet cd).mXMax =
      sets.foldl (fun a d => max a d.getXMax) cd.mXMax := by
  induction sets with
  | nil => intro cd; rfl
  | cons d rest ih =>
      intro cd
      simp only [List.foldl_cons, ih, cmmds_mXMax]

lemma foldl_cmmds_mXMin (sets : List DataSet) : ∀ cd : ChartData,
    (sets.foldl calcMinMaxForDataSet cd).mXMin =
      sets.foldl (fun a d => min a d.getXMin) cd.mXMin := by
  induction sets with
  | nil => intro cd; rfl
  | cons d rest ih =>
      intro cd
      simp only [List.foldl_cons, ih, cmmds_mXMin]

lemma foldl_leftLoop_others (sets : List DataSet) : ∀ cd : ChartData,
    (sets.foldl leftLoopStep cd).mDataSets = cd.mDataSets ∧
    (sets.foldl leftLoopStep cd).mYMax = cd.mYMax ∧
    (sets.foldl leftLoopStep cd).mYMin = cd.mYMin ∧
    (sets.foldl leftLoopStep cd).mXMax = cd.mXMax ∧
    (sets.foldl leftLoopStep cd).mXMin = cd.mXMin ∧
    (sets.foldl leftLoopStep cd).mRightAxisMax = cd.mRightAxisMax ∧
    (sets.foldl leftLoopStep cd).mRightAxisMin = cd.mRightAxisMin := by
  induction sets with
  | nil => intro cd; exact ⟨rfl, rfl, rfl, rfl, rfl, rfl, rfl⟩
  | cons d rest ih =>
      intro cd
      have h := leftLoopStep_others cd d
      simp only [List.foldl_cons]
      obtain ⟨i1, i2, i3, i4, i5, i6, i7⟩ := ih (leftLoopStep cd d)
      exact ⟨i1.trans h.1, i2.trans h.2.1, i3.trans h.2.2.1, i4.trans h.2.2.2.1,
        i5.trans h.2.2.2.2.1, i6.trans h.2.2.2.2.2.1, i7.trans h.2.2.2.2.2.2⟩

lemma foldl_rightLoop_others (sets : List DataSet) : ∀ cd : ChartData,
    (sets.foldl rightLoopStep cd).mDataSets = cd.mDataSets ∧
    (sets.foldl rightLoopStep cd).mYMax = cd.mYMax ∧
    (sets.foldl rightLoopStep cd).mYMin = cd.mYMin ∧
    (sets.foldl rightLoopStep cd).mXMax = cd.mXMax ∧
    (sets.foldl rightLoopStep cd).mXMin = cd.mXMin ∧
    (sets.foldl rightLoopStep cd).mLeftAxisMax = cd.mLeftAxisMax ∧
    (sets.foldl rightLoopStep cd).mLeftAxisMin = cd.mLeftAxisMin := by
  induction sets with
  | nil => intro cd; exact ⟨rfl, rfl, rfl, rfl, rfl, rfl, rfl⟩
  | cons d rest ih =>
      intro cd
      have h := rightLoopStep_others cd d
      simp only [List.foldl_cons]
      obtain ⟨i1, i2, i3, i4, i5, i6, i7⟩ := ih (rightLoopStep cd d)
      exact ⟨i1.trans h.1, i2.trans h.2.1, i3.trans h.2.2.1, i4.trans h.2.2.2.1,
        i5.trans h.2.2.2.2.1, i6.trans h.2.2.2.2.2.1, i7.trans h.2.2.2.2.2.2⟩

lemma foldl_leftLoop_mLeftAxisMax (sets : List DataSet) : ∀ cd : ChartData,
    (sets.foldl leftLoopStep cd).mLeftAxisMax =
      sets.foldl
        (fun a d =>
          if d.getAxisDependency = AxisDependency.LEFT then max a d.getYMax else a)
        cd.mLeftAxisMax := by
  induction sets with
  | nil => intro cd; rfl
  | cons d rest ih =>
      intro cd
      simp only [List.foldl_cons, ih, leftLoopStep_mLeftAxisMax]

lemma foldl_leftLoop_mLeftAxisMin (sets : List DataSet) : ∀ cd : ChartData,
    (sets.foldl leftLoopStep cd).mLeftAxisMin =
      sets.foldl
        (fun a d =>
          if d.getAxisDependency = AxisDependency.LEFT then min a d.getYMin else a)
        cd.mLeftAxisMin := by
  induction sets with
  | nil => intro cd; rfl
  | cons d rest ih =>
      intro cd
      simp only [List.foldl_cons, ih, leftLoopStep_mLeftAxisMin]

lemma foldl_rightLoop_mRightAxisMax (sets : List DataSet) : ∀ cd : ChartData,
    (sets.foldl rightLoopStep cd).mRightAxisMax =
      sets.foldl
        (fun a d =>
          if d.getAxisDependency = AxisDependency.RIGHT then max a d.getYMax else a)
        cd.mRightAxisMax := by
  induction sets with
  | nil => intro cd; rfl
  | cons d rest ih =>
      intro cd
      simp only [List.foldl_cons, ih, rightLoopStep_mRightAxisMax]

lemma foldl_rightLoop_mRightAxisMin (sets : List DataSet) : ∀ cd : ChartData,
    (sets.foldl rightLoopStep cd).mRightAxisMin =
      sets.foldl
        (fun a d =>
          if d.getAxisDependency = AxisDependency.RIGHT then min a d.getYMin else a)
        cd.mRightAxisMin := by
  induction sets with
  | nil => intro cd; rfl
  | cons d rest ih =>
      intro cd
      simp only [List.foldl_cons, ih, rightLoopStep_mRightAxisMin]

/-! ### From set-level folds to entry-level spec bounds -/

lemma sets_fold_max (f : Entry → ℚ) (sets : List DataSet) :
    sets.foldl (fun a d => max a ((d.entries.map f).foldl max (-MAX_VALUE)))
        (-MAX_VALUE)
      = (((sets.map DataSet.entries).flatten).map f).foldl max (-MAX_VALUE) := by
  rw [← List.foldl_map (fun d : DataSet => (d.entries.map f).foldl max (-MAX_VALUE)) max]
  rw [List.map_flatten, List.map_map]
  rw [show sets.map (fun d : DataSet => (d.entries.map f).foldl max (-MAX_VALUE))
      = (sets.map (List.map f ∘ DataSet.entries)).map (fun l => l.foldl max (-MAX_VALUE)) by
    rw [List.map_map]; rfl]
  exact foldl_max_flatten2 (-MAX_VALUE) (sets.map (List.map f ∘ DataSet.entries))

lemma sets_fold_min (f : Entry → ℚ) (sets : List DataSet) :
    sets.foldl (fun a d => min a ((d.entries.map f).foldl min MAX_VALUE))
        MAX_VALUE
      = (((sets.map DataSet.entries).flatten).map f).foldl min MAX_VALUE := by
  rw [← List.foldl_map (fun d : DataSet => (d.entries.map f).foldl min MAX_VALUE) min]
  rw [List.map_flatten, List.map_map]
  rw [show sets.map (fun d : DataSet => (d.entries.map f).foldl min MAX_VALUE)
      = (sets.map (List.map f ∘ DataSet.entries)).map (fun l => l.foldl min MAX_VALUE) by
    rw [List.map_map]; rfl]
  exact foldl_min_flatten2 MAX_VALUE (sets.map (List.map f ∘ DataSet.entries))

lemma foldl_filter_prop {α β : Type} (p : α → Prop) [DecidablePred p]
    (f : β → α → β) (l : List α) : ∀ init,
    l.foldl (fun x y => if p y then f x y else x) init
      = (l.filter (fun y => decide (p y))).foldl f init := by
  induction l with
  | nil => intro init; rfl
  | cons a l ih =>
      intro init
      simp only [List.foldl_cons, List.filter_cons]
      by_cases h : p a <;> simp [h, ih]

lemma specYMax_as_fold (sets : List DataSet) :
    specYMax sets = sets.foldl (fun a d => max a d.getYMax) (-MAX_VALUE) := by
  unfold specYMax allEntries
  rw [← sets_fold_max Entry.y sets]
  simp only [DataSet.getYMax]

lemma specYMin_as_fold (sets : List DataSet) :
    specYMin sets = sets.foldl (fun a d => min a d.getYMin) MAX_VALUE := by
  unfold specYMin allEntries
  rw [← sets_fold_min Entry.y sets]
  simp only [DataSet.getYMin]

lemma specXMax_as_fold (sets : List DataSet) :
    specXMax sets = sets.foldl (fun a d => max a d.getXMax) (-MAX_VALUE) := by
  unfold specXMax allEntries
  rw [← sets_fold_max Entry.x sets]
  simp only [DataSet.getXMax]

lemma specXMin_as_fold (sets : List DataSet) :
    specXMin sets = sets.foldl (fun a d => min a d.getXMin) MAX_VALUE := by
  unfold specXMin allEntries
  rw [← sets_fold_min Entry.x sets]
  simp only [DataSet.getXMin]

lemma specAxisYMax_as_fold (a : AxisDependency) (sets : List DataSet) :
    specAxisYMax a sets
      = (sets.filter (fun d => d.getAxisDependency = a)).foldl
          (fun acc d => max acc d.getYMax) (-MAX_VALUE) := by
  unfold specAxisYMax entriesOn
  rw [← sets_fold_max Entry.y]
  simp only [DataSet.getYMax]

lemma specAxisYMin_as_fold (a : AxisDependency) (sets : List DataSet) :
    specAxisYMin a sets
      = (sets.filter (fun d => d.getAxisDependency = a)).foldl
          (fun acc d => min acc d.getYMin) MAX_VALUE := by
  unfold specAxisYMin entriesOn
  rw [← sets_fold_min Entry.y]
  simp only [DataSet.getYMin]

lemma neg_MAX_le_getYMax (d : DataSet) : -MAX_VALUE ≤ d.getYMax :=
  le_foldl_max _ _

lemma getYMin_le_MAX (d : DataSet) : d.getYMin ≤ MAX_VALUE :=
  foldl_min_le _ _

/-- The left-axis section computes exactly the clamped extrema over the
left-axis entries, provided the left bounds were reset to their sentinels
beforehand (as `calcMinMax` does). -/
lemma leftSection_spec (cd : ChartData)
    (hMax : cd.mLeftAxisMax = -MAX_VALUE) (hMin : cd.mLeftAxisMin = MAX_VALUE) :
    (calcMinMaxLeftSection cd).mLeftAxisMax
        = specAxisYMax AxisDependency.LEFT cd.mDataSets ∧
    (calcMinMaxLeftSection cd).mLeftAxisMin
        = specAxisYMin AxisDependency.LEFT cd.mDataSets := by
  unfold calcMinMaxLeftSection
  cases h : getFirstLeft cd.mDataSets with
  | none =>
      have hfil :
          cd.mDataSets.filter
              (fun d => d.getAxisDependency = AxisDependency.LEFT) = [] := by
        refine List.filter_eq_nil_iff.mpr ?_
        intro x hx
        have := List.find?_eq_none.mp h x hx
        simpa using this
      rw [specAxisYMax_as_fold, specAxisYMin_as_fold, hfil]
      exact ⟨hMax, hMin⟩
  | some f =>
      have h' : cd.mDataSets.find?
          (fun d => decide (d.getAxisDependency = AxisDependency.LEFT)) = some f := h
      obtain ⟨rest, hrest⟩ := filter_cons_of_find? _ h'
      constructor
      · rw [foldl_leftLoop_mLeftAxisMax]
        simp only []
        rw [foldl_filter_prop (fun d => d.getAxisDependency = AxisDependency.LEFT)
          (fun a d => max a d.getYMax) cd.mDataSets f.getYMax]
        rw [specAxisYMax_as_fold, hrest]
        simp only [List.foldl_cons, max_self,
          max_eq_right (neg_MAX_le_getYMax f)]
      · rw [foldl_leftLoop_mLeftAxisMin]
        simp only []
        rw [foldl_filter_prop (fun d => d.getAxisDependency = AxisDependency.LEFT)
          (fun a d => min a d.getYMin) cd.mDataSets f.getYMin]
        rw [specAxisYMin_as_fold, hrest]
        simp only [List.foldl_cons, min_self,
          min_eq_right (getYMin_le_MAX f)]

lemma rightSection_spec (cd : ChartData)
    (hMax : cd.mRightAxisMax = -MAX_VALUE) (hMin : cd.mRightAxisMin = MAX_VALUE) :
    (calcMinMaxRightSection cd).mRightAxisMax
        = specAxisYMax AxisDependency.RIGHT cd.mDataSets ∧
    (calcMinMaxRightSection cd).mRightAxisMin
        = specAxisYMin AxisDependency.RIGHT cd.mDataSets := by
  unfold calcMinMaxRightSection
  cases h : getFirstRight cd.mDataSets with
  | none =>
      have hfil :
          cd.mDataSets.filter
              (fun d => d.getAxisDependency = AxisDependency.RIGHT) = [] := by
        refine List.filter_eq_nil_iff.mpr ?_
        intro x hx
        have := List.find?_eq_none.mp h x hx
        simpa using this
      rw [specAxisYMax_as_fold, specAxisYMin_as_fold, hfil]
      exact ⟨hMax, hMin⟩
  | some f =>
      have h' : cd.mDataSets.find?
          (fun d => decide (d.getAxisDependency = AxisDependency.RIGHT)) = some f := h
      obtain ⟨rest, hrest⟩ := filter_cons_of_find? _ h'
      constructor
      · rw [foldl_rightLoop_mRightAxisMax]
        simp only []
        rw [foldl_filter_prop (fun d => d.getAxisDependency = AxisDependency.RIGHT)
          (fun a d => max a d.getYMax) cd.mDataSets f.getYMax]
        rw [specAxisYMax_as_fold, hrest]
        simp only [List.foldl_cons, max_self,
          max_eq_right (neg_MAX_le_getYMax f)]
      · rw [foldl_rightLoop_mRightAxisMin]
        simp only []
        rw [foldl_filter_prop (fun d => d.getAxisDependency = AxisDependency.RIGHT)
          (fun a d => min a d.getYMin) cd.mDataSets f.getYMin]
        rw [specAxisYMin_as_fold, hrest]
        simp only [List.foldl_cons, min_self,
          min_eq_right (getYMin_le_MAX f)]

lemma leftSection_others (cd : ChartData) :
    (calcMinMaxLeftSection cd).mDataSets = cd.mDataSets ∧
    (calcMinMaxLeftSection cd).mYMax = cd.mYMax ∧
    (calcMinMaxLeftSection cd).mYMin = cd.mYMin ∧
    (calcMinMaxLeftSection cd).mXMax = cd.mXMax ∧
    (calcMinMaxLeftSection cd).mXMin = cd.mXMin ∧
    (calcMinMaxLeftSection cd).mRightAxisMax = cd.mRightAxisMax ∧
    (calcMinMaxLeftSection cd).mRightAxisMin = cd.mRightAxisMin := by
  unfold calcMinMaxLeftSection
  cases h : getFirstLeft cd.mDataSets with
  | none => exact ⟨rfl, rfl, rfl, rfl, rfl, rfl, rfl⟩
  | some f =>
      have := foldl_leftLoop_others cd.mDataSets
        { cd with mLeftAxisMax := f.getYMax, mLeftAxisMin := f.getYMin }
      simpa using this

lemma rightSection_others (cd : ChartData) :
    (calcMinMaxRightSection cd).mDataSets = cd.mDataSets ∧
    (calcMinMaxRightSection cd).mYMax = cd.mYMax ∧
    (calcMinMaxRightSection cd).mYMin = cd.mYMin ∧
    (calcMinMaxRightSection cd).mXMax = cd.mXMax ∧
    (calcMinMaxRightSection cd).mXMin = cd.mXMin ∧
    (calcMinMaxRightSection cd).mLeftAxisMax = cd.mLeftAxisMax ∧
    (calcMinMaxRightSection cd).mLeftAxisMin = cd.mLeftAxisMin := by
  unfold calcMinMaxRightSection
  cases h : getFirstRight cd.mDataSets with
  | none => exact ⟨rfl, rfl, rfl, rfl, rfl, rfl, rfl⟩
  | some f =>
      have := foldl_rightLoop_others cd.mDataSets
        { cd with mRightAxisMax := f.getYMax, mRightAxisMin := f.getYMin }
      simpa using this

lemma calcMinMaxXY_spec (cd : ChartData) :
    (calcMinMaxXY cd).mDataSets = cd.mDataSets ∧
    (calcMinMaxXY cd).mYMax = specYMax cd.mDataSets ∧
    (calcMinMaxXY cd).mYMin = specYMin cd.mDataSets ∧
    (calcMinMaxXY cd).mXMax = specXMax cd.mDataSets ∧
    (calcMinMaxXY cd).mXMin = specXMin cd.mDataSets := by
  unfold calcMinMaxXY
  refine ⟨?_, ?_, ?_, ?_, ?_⟩
  · simpa using foldl_cmmds_mDataSets cd.mDataSets _
  · rw [foldl_cmmds_mYMax, specYMax_as_fold]
  · rw [foldl_cmmds_mYMin, specYMin_as_fold]
  · rw [foldl_cmmds_mXMax, specXMax_as_fold]
  · rw [foldl_cmmds_mXMin, specXMin_as_fold]

/-- Central exactness lemma: a full `calcMinMax` recomputation establishes
the bounds invariant on any container state, and leaves the data sets
untouched. -/
lemma calcMinMax_spec (cd : ChartData) :
    (calcMinMax cd).mDataSets = cd.mDataSets ∧ boundsCorrect (calcMinMax cd) := by
  unfold calcMinMax
  obtain ⟨hds, hymax, hymin, hxmax, hxmin⟩ := calcMinMaxXY_spec cd
  set cdR : ChartData :=
    { calcMinMaxXY cd with
      mLeftAxisMax := -MAX_VALUE, mLeftAxisMin := MAX_VALUE
      mRightAxisMax := -MAX_VALUE, mRightAxisMin := MAX_VALUE } with hcdR
  obtain ⟨lds, lymax, lymin, lxmax, lxmin, lrmax, lrmin⟩ := leftSection_others cdR
  obtain ⟨hlmax, hlmin⟩ := leftSection_spec cdR rfl rfl
  obtain ⟨rds, rymax, rymin, rxmax, rxmin, rlmax, rlmin⟩ :=
    rightSection_others (calcMinMaxLeftSection cdR)
  obtain ⟨hrmax, hrmin⟩ := rightSection_spec (calcMinMaxLeftSection cdR)
    (lrmax.trans rfl) (lrmin.trans rfl)
  have hdsR : cdR.mDataSets = cd.mDataSets := by rw [hcdR]; simpa using hds
  have hfinal_ds :
      (calcMinMaxRightSection (calcMinMaxLeftSection cdR)).mDataSets
        = cd.mDataSets := by rw [rds, lds, hdsR]
  refine ⟨hfinal_ds, ?_, ?_, ?_, ?_, ?_, ?_, ?_, ?_⟩
  · rw [hfinal_ds, rymax, lymax]
    show (calcMinMaxXY cd).mYMax = _
    rw [hymax]
  · rw [hfinal_ds, rymin, lymin]
    show (calcMinMaxXY cd).mYMin = _
    rw [hymin]
  · rw [hfinal_ds, rxmax, lxmax]
    show (calcMinMaxXY cd).mXMax = _
    rw [hxmax]
  · rw [hfinal_ds, rxmin, lxmin]
    show (calcMinMaxXY cd).mXMin = _
    rw [hxmin]
  · rw [hfinal_ds, rlmax, hlmax, hdsR]
  · rw [hfinal_ds, rlmin, hlmin, hdsR]
  · rw [hfinal_ds, hrmax, lds, hdsR]
  · rw [hfinal_ds, hrmin, lds, hdsR]

/-- The constructor establishes the bounds invariant. -/
lemma mkChartData_spec (sets : List DataSet) :
    (mkChartData sets).mDataSets = sets ∧ boundsCorrect (mkChartData sets) := by
  unfold mkChartData
  exact calcMinMax_spec _

/-! ### Fold lemmas for point updates of the data-set list -/

lemma map_foldl_max_set (g : DataSet → ℚ) (sets : List DataSet) :
    ∀ (i : ℕ) (s0 newSet : DataSet) (v init : ℚ),
    sets.get? i = some s0 → g newSet = max (g s0) v →
    ((sets.set i newSet).map g).foldl max init
      = max ((sets.map g).foldl max init) v := by
  induction sets with
  | nil => intro i s0 newSet v init hget; simp at hget
  | cons d rest ih =>
      intro i s0 newSet v init hget hg
      cases i with
      | zero =>
          obtain rfl : d = s0 := by simpa using hget
          simp only [List.set_cons_zero, List.map_cons, List.foldl_cons, hg]
          rw [← max_assoc, foldl_max_out]
      | succ i =>
          simp only [List.set_cons_succ, List.map_cons, List.foldl_cons]
          exact ih i s0 newSet v (max init (g d)) (by simpa using hget) hg

lemma map_foldl_min_set (g : DataSet → ℚ) (sets : List DataSet) :
    ∀ (i : ℕ) (s0 newSet : DataSet) (v init : ℚ),
    sets.get? i = some s0 → g newSet = min (g s0) v →
    ((sets.set i newSet).map g).foldl min init
      = min ((sets.map g).foldl min init) v := by
  induction sets with
  | nil => intro i s0 newSet v init hget; simp at hget
  | cons d rest ih =>
      intro i s0 newSet v init hget hg
      cases i with
      | zero =>
          obtain rfl : d = s0 := by simpa using hget
          simp only [List.set_cons_zero, List.map_cons, List.foldl_cons, hg]
          rw [← min_assoc, foldl_min_out]
      | succ i =>
          simp only [List.set_cons_succ, List.map_cons, List.foldl_cons]
          exact ih i s0 newSet v (min init (g d)) (by simpa using hget) hg

lemma filter_map_foldl_max_set (p : DataSet → Bool) (g : DataSet → ℚ)
    (sets : List DataSet) :
    ∀ (i : ℕ) (s0 newSet : DataSet) (v init : ℚ),
    sets.get? i = some s0 → g newSet = max (g s0) v → p newSet = p s0 →
    (((sets.set i newSet).filter p).map g).foldl max init
      = if p s0 then max (((sets.filter p).map g).foldl max init) v
        else ((sets.filter p).map g).foldl max init := by
  induction sets with
  | nil => intro i s0 newSet v init hget; simp at hget
  | cons d rest ih =>
      intro i s0 newSet v init hget hg hp
      cases i with
      | zero =>
          obtain rfl : d = s0 := by simpa using hget
          simp only [List.set_cons_zero, List.filter_cons, hp]
          cases hpd : p d with
          | false => simp
          | true =>
              simp only [if_true, List.map_cons, List.foldl_cons, hg]
              rw [← max_assoc, foldl_max_out]
      | succ i =>
          have hget' : rest.get? i = some s0 := by simpa using hget
          simp only [List.set_cons_succ, List.filter_cons]
          cases hpd : p d with
          | false =>
              simpa using ih i s0 newSet v init hget' hg hp
          | true =>
              simp only [if_true, List.map_cons, List.foldl_cons]
              exact ih i s0 newSet v (max init (g d)) hget' hg hp

lemma filter_map_foldl_min_set (p : DataSet → Bool) (g : DataSet → ℚ)
    (sets : List DataSet) :
    ∀ (i : ℕ) (s0 newSet : DataSet) (v init : ℚ),
    sets.get? i = some s0 → g newSet = min (g s0) v → p newSet = p s0 →
    (((sets.set i newSet).filter p).map g).foldl min init
      = if p s0 then min (((sets.filter p).map g).foldl min init) v
        else ((sets.filter p).map g).foldl min init := by
  induction sets with
  | nil => intro i s0 newSet v init hget; simp at hget
  | cons d rest ih =>
      intro i s0 newSet v init hget hg hp
      cases i with
      | zero =>
          obtain rfl : d = s0 := by simpa using hget
          simp only [List.set_cons_zero, List.filter_cons, hp]
          cases hpd : p d with
          | false => simp
          | true =>
              simp only [if_true, List.map_cons, List.foldl_cons, hg]
              rw [← min_assoc, foldl_min_out]
      | succ i =>
          have hget' : rest.get? i = some s0 := by simpa using hget
          simp only [List.set_cons_succ, List.filter_cons]
          cases hpd : p d with
          | false =>
              simpa using ih i s0 newSet v init hget' hg hp
          | true =>
              simp only [if_true, List.map_cons, List.foldl_cons]
              exact ih i s0 newSet v (min init (g d)) hget' hg hp

/-! ### Spec bounds under entry append and data-set append -/

lemma getYMax_append (s0 : DataSet) (e : Entry) :
    DataSet.getYMax { s0 with entries := s0.entries ++ [e] }
      = max s0.getYMax e.y := by
  unfold DataSet.getYMax
  rw [List.map_append, foldl_max_append2]
  simp only [List.map_cons, List.map_nil, List.foldl_cons, List.foldl_nil]
  rw [← max_assoc, max_eq_left (le_foldl_max _ _)]

lemma getYMin_append (s0 : DataSet) (e : Entry) :
    DataSet.getYMin { s0 with entries := s0.entries ++ [e] }
      = min s0.getYMin e.y := by
  unfold DataSet.getYMin
  rw [List.map_append, foldl_min_append2]
  simp only [List.map_cons, List.map_nil, List.foldl_cons, List.foldl_nil]
  rw [← min_assoc, min_eq_left (foldl_min_le _ _)]

lemma getXMax_append (s0 : DataSet) (e : Entry) :
    DataSet.getXMax { s0 with entries := s0.entries ++ [e] }
      = max s0.getXMax e.x := by
  unfold DataSet.getXMax
  rw [List.map_append, foldl_max_append2]
  simp only [List.map_cons, List.map_nil, List.foldl_cons, List.foldl_nil]
  rw [← max_assoc, max_eq_left (le_foldl_max _ _)]

lemma getXMin_append (s0 : DataSet) (e : Entry) :
    DataSet.getXMin { s0 with entries := s0.entries ++ [e] }
      = min s0.getXMin e.x := by
  unfold DataSet.getXMin
  rw [List.map_append, foldl_min_append2]
  simp only [List.map_cons, List.map_nil, List.foldl_cons, List.foldl_nil]
  rw [← min_assoc, min_eq_left (foldl_min_le _ _)]

lemma specYMax_as_mapfold (sets : List DataSet) :
    specYMax sets = (sets.map DataSet.getYMax).foldl max (-MAX_VALUE) := by
  rw [specYMax_as_fold, List.foldl_map]

lemma specYMin_as_mapfold (sets : List DataSet) :
    specYMin sets = (sets.map DataSet.getYMin).foldl min MAX_VALUE := by
  rw [specYMin_as_fold, List.foldl_map]

lemma specXMax_as_mapfold (sets : List DataSet) :
    specXMax sets = (sets.map DataSet.getXMax).foldl max (-MAX_VALUE) := by
  rw [specXMax_as_fold, List.foldl_map]

lemma specXMin_as_mapfold (sets : List DataSet) :
    specXMin sets = (sets.map DataSet.getXMin).foldl min MAX_VALUE := by
  rw [specXMin_as_fold, List.foldl_map]

lemma specAxisYMax_as_mapfold (a : AxisDependency) (sets : List DataSet) :
    specAxisYMax a sets
      = ((sets.filter (fun d => d.getAxisDependency = a)).map
          DataSet.getYMax).foldl max (-MAX_VALUE) := by
  rw [specAxisYMax_as_fold, List.foldl_map]

lemma specAxisYMin_as_mapfold (a : AxisDependency) (sets : List DataSet) :
    specAxisYMin a sets
      = ((sets.filter (fun d => d.getAxisDependency = a)).map
          DataSet.getYMin).foldl min MAX_VALUE := by
  rw [specAxisYMin_as_fold, List.foldl_map]

lemma specYMax_append (sets : List DataSet) (d : DataSet) :
    specYMax (sets ++ [d]) = max (specYMax sets) d.getYMax := by
  rw [specYMax_as_mapfold, specYMax_as_mapfold, List.map_append]
  simp [List.foldl_append]

lemma specYMin_append (sets : List DataSet) (d : DataSet) :
    specYMin (sets ++ [d]) = min (specYMin sets) d.getYMin := by
  rw [specYMin_as_mapfold, specYMin_as_mapfold, List.map_append]
  simp [List.foldl_append]

lemma specXMax_append (sets : List DataSet) (d : DataSet) :
    specXMax (sets ++ [d]) = max (specXMax sets) d.getXMax := by
  rw [specXMax_as_mapfold, specXMax_as_mapfold, List.map_append]
  simp [List.foldl_append]

lemma specXMin_append (sets : List DataSet) (d : DataSet) :
    specXMin (sets ++ [d]) = min (specXMin sets) d.getXMin := by
  rw [specXMin_as_mapfold, specXMin_as_mapfold, List.map_append]
  simp [List.foldl_append]

lemma specAxisYMax_append (a : AxisDependency) (sets : List DataSet) (d : DataSet) :
    specAxisYMax a (sets ++ [d])
      = if d.getAxisDependency = a then max (specAxisYMax a sets) d.getYMax
        else specAxisYMax a sets := by
  rw [specAxisYMax_as_mapfold, specAxisYMax_as_mapfold, List.filter_append]
  by_cases hd : d.getAxisDependency = a
  · simp [List.filter_cons, hd, List.foldl_append]
  · simp [List.filter_cons, hd]

lemma specAxisYMin_append (a : AxisDependency) (sets : List DataSet) (d : DataSet) :
    specAxisYMin a (sets ++ [d])
      = if d.getAxisDependency = a then min (specAxisYMin a sets) d.getYMin
        else specAxisYMin a sets := by
  rw [specAxisYMin_as_mapfold, specAxisYMin_as_mapfold, List.filter_append]
  by_cases hd : d.getAxisDependency = a
  · simp [List.filter_cons, hd, List.foldl_append]
  · simp [List.filter_cons, hd]

/-! ### Preservation of the bounds invariant by every mutating operation -/

lemma boundsCorrect_addEntry_core (cd : ChartData) (e : Entry) (i : ℕ)
    (s0 : DataSet) (hget : cd.mDataSets.get? i = some s0)
    (h : boundsCorrect cd) :
    boundsCorrect
      (calcMinMaxForEntry
        { cd with
          mDataSets := cd.mDataSets.set i { s0 with entries := s0.entries ++ [e] } }
        e s0.getAxisDependency) := by
  obtain ⟨h1, h2, h3, h4, h5, h6, h7, h8⟩ := h
  have hds :
      (calcMinMaxForEntry
        { cd with
          mDataSets := cd.mDataSets.set i { s0 with entries := s0.entries ++ [e] } }
        e s0.getAxisDependency).mDataSets
      = cd.mDataSets.set i { s0 with entries := s0.entries ++ [e] } := by
    rw [cmmfe_mDataSets]
  refine ⟨?_, ?_, ?_, ?_, ?_, ?_, ?_, ?_⟩ <;> rw [hds]
  · rw [cmmfe_mYMax]
    show max cd.mYMax e.y = _
    rw [h1, specYMax_as_mapfold, specYMax_as_mapfold]
    exact (map_foldl_max_set DataSet.getYMax cd.mDataSets i s0 _ e.y _ hget
      (getYMax_append s0 e)).symm
  · rw [cmmfe_mYMin]
    show min cd.mYMin e.y = _
    rw [h2, specYMin_as_mapfold, specYMin_as_mapfold]
    exact (map_foldl_min_set DataSet.getYMin cd.mDataSets i s0 _ e.y _ hget
      (getYMin_append s0 e)).symm
  · rw [cmmfe_mXMax]
    show max cd.mXMax e.x = _
    rw [h3, specXMax_as_mapfold, specXMax_as_mapfold]
    exact (map_foldl_max_set DataSet.getXMax cd.mDataSets i s0 _ e.x _ hget
      (getXMax_append s0 e)).symm
  · rw [cmmfe_mXMin]
    show min cd.mXMin e.x = _
    rw [h4, specXMin_as_mapfold, specXMin_as_mapfold]
    exact (map_foldl_min_set DataSet.getXMin cd.mDataSets i s0 _ e.x _ hget
      (getXMin_append s0 e)).symm
  · rw [cmmfe_mLeftAxisMax, specAxisYMax_as_mapfold]
    rw [filter_map_foldl_max_set
      (fun d => decide (d.getAxisDependency = AxisDependency.LEFT))
      DataSet.getYMax cd.mDataSets i s0 _ e.y _ hget (getYMax_append s0 e) rfl]
    rw [h5, specAxisYMax_as_mapfold]
    by_cases ha : s0.getAxisDependency = AxisDependency.LEFT <;> simp [ha]
  · rw [cmmfe_mLeftAxisMin, specAxisYMin_as_mapfold]
    rw [filter_map_foldl_min_set
      (fun d => decide (d.getAxisDependency = AxisDependency.LEFT))
      DataSet.getYMin cd.mDataSets i s0 _ e.y _ hget (getYMin_append s0 e) rfl]
    rw [h6, specAxisYMin_as_mapfold]
    by_cases ha : s0.getAxisDependency = AxisDependency.LEFT <;> simp [ha]
  · rw [cmmfe_mRightAxisMax, specAxisYMax_as_mapfold]
    rw [filter_map_foldl_max_set
      (fun d => decide (d.getAxisDependency = AxisDependency.RIGHT))
      DataSet.getYMax cd.mDataSets i s0 _ e.y _ hget (getYMax_append s0 e) rfl]
    rw [h7, specAxisYMax_as_mapfold]
    cases hax : s0.getAxisDependency <;> simp [hax]
  · rw [cmmfe_mRightAxisMin, specAxisYMin_as_mapfold]
    rw [filter_map_foldl_min_set
      (fun d => decide (d.getAxisDependency = AxisDependency.RIGHT))
      DataSet.getYMin cd.mDataSets i s0 _ e.y _ hget (getYMin_append s0 e) rfl]
    rw [h8, specAxisYMin_as_mapfold]
    cases hax : s0.getAxisDependency <;> simp [hax]

lemma boundsCorrect_addEntry (cd : ChartData) (e : Entry) (idx : ℤ)
    (h : boundsCorrect cd) : boundsCorrect (addEntry cd e idx) := by
  unfold addEntry
  split
  · rename_i hg
    cases hj : jsIndex cd.mDataSets idx with
    | none => exact h
    | some s0 =>
        have hget : cd.mDataSets.get? idx.toNat = some s0 := by
          unfold jsIndex at hj
          rw [if_pos hg.2] at hj
          exact hj
        exact boundsCorrect_addEntry_core cd e idx.toNat s0 hget h
  · exact h

lemma boundsCorrect_addDataSet (cd : ChartData) (d : Option DataSet)
    (h : boundsCorrect cd) : boundsCorrect (addDataSet cd d) := by
  cases d with
  | none => exact h
  | some d =>
      obtain ⟨h1, h2, h3, h4, h5, h6, h7, h8⟩ := h
      show boundsCorrect
        { calcMinMaxForDataSet cd d with
          mDataSets := (calcMinMaxForDataSet cd d).mDataSets ++ [d] }
      rw [cmmds_mDataSets]
      refine ⟨?_, ?_, ?_, ?_, ?_, ?_, ?_, ?_⟩
      · show (calcMinMaxForDataSet cd d).mYMax = _
        rw [cmmds_mYMax, h1, specYMax_append]
      · show (calcMinMaxForDataSet cd d).mYMin = _
        rw [cmmds_mYMin, h2, specYMin_append]
      · show (calcMinMaxForDataSet cd d).mXMax = _
        rw [cmmds_mXMax, h3, specXMax_append]
      · show (calcMinMaxForDataSet cd d).mXMin = _
        rw [cmmds_mXMin, h4, specXMin_append]
      · show (calcMinMaxForDataSet cd d).mLeftAxisMax = _
        rw [cmmds_mLeftAxisMax, h5, specAxisYMax_append]
      · show (calcMinMaxForDataSet cd d).mLeftAxisMin = _
        rw [cmmds_mLeftAxisMin, h6, specAxisYMin_append]
      · show (calcMinMaxForDataSet cd d).mRightAxisMax = _
        rw [cmmds_mRightAxisMax, h7, specAxisYMax_append]
        cases hax : d.getAxisDependency <;> simp
      · show (calcMinMaxForDataSet cd d).mRightAxisMin = _
        rw [cmmds_mRightAxisMin, h8, specAxisYMin_append]
        cases hax : d.getAxisDependency <;> simp

lemma boundsCorrect_removeEntry (cd : ChartData) (e : Option Entry) (idx : ℤ)
    (h : boundsCorrect cd) : boundsCorrect (removeEntry cd e idx).2 := by
  unfold removeEntry
  split
  · exact h
  · cases hj : jsIndex cd.mDataSets idx with
    | none => cases e <;> exact h
    | some s0 =>
        cases e with
        | none => exact h
        | some e0 =>
            by_cases hm : e0 ∈ s0.entries
            · simp only [DataSet.removeEntry, if_pos hm]
              exact (calcMinMax_spec _).2
            · simp only [DataSet.removeEntry, if_neg hm]
              exact h

lemma boundsCorrect_removeDataSet (cd : ChartData) (d : Option DataSet)
    (h : boundsCorrect cd) : boundsCorrect (removeDataSet cd d).2 := by
  unfold removeDataSet
  cases d with
  | none => exact h
  | some d =>
      show boundsCorrect
        (match cd.mDataSets.indexOf? d with
          | none => (false, cd)
          | some index =>
              (true,
                calcMinMax
                  { cd with mDataSets := cd.mDataSets.eraseIdx index })).2
      cases cd.mDataSets.indexOf? d with
      | none => exact h
      | some index => exact (calcMinMax_spec _).2

lemma boundsCorrect_clearValues (cd : ChartData) :
    boundsCorrect (clearValues cd) :=
  (calcMinMax_spec _).2

/-- The operations of claim C8, applied to a `ChartData` container. -/
inductive Op where
  | addEntry (e : Entry) (dataSetIndex : ℤ)
  | removeEntry (e : Option Entry) (dataSetIndex : ℤ)
  | addDataSet (d : Option DataSet)
  | removeDataSet (d : Option DataSet)
  | clearValues

/-- Run one operation (discarding the returned success flags, which do not
affect the container state). -/
def applyOp (cd : ChartData) : Op → ChartData
  | Op.addEntry e i => addEntry cd e i
  | Op.removeEntry e i => (removeEntry cd e i).2
  | Op.addDataSet d => addDataSet cd d
  | Op.removeDataSet d => (removeDataSet cd d).2
  | Op.clearValues => clearValues cd

lemma boundsCorrect_applyOp (cd : ChartData) (op : Op)
    (h : boundsCorrect cd) : boundsCorrect (applyOp cd op) := by
  cases op with
  | addEntry e i => exact boundsCorrect_addEntry cd e i h
  | removeEntry e i => exact boundsCorrect_removeEntry cd e i h
  | addDataSet d => exact boundsCorrect_addDataSet cd d h
  | removeDataSet d => exact boundsCorrect_removeDataSet cd d h
  | clearValues => exact boundsCorrect_clearValues cd

lemma boundsCorrect_foldl_applyOp (ops : List Op) :
    ∀ cd : ChartData, boundsCorrect cd → boundsCorrect (ops.foldl applyOp cd) := by
  induction ops with
  | nil => intro cd h; exact h
  | cons op rest ih =>
      intro cd h
      exact ih (applyOp cd op) (boundsCorrect_applyOp cd op h)

lemma specAxis_of_no_axis_set (a : AxisDependency) (sets : List DataSet)
    (h : ∀ d ∈ sets, d.getAxisDependency ≠ a) :
    specAxisYMin a sets = MAX_VALUE ∧ specAxisYMax a sets = -MAX_VALUE := by
  have hfil : sets.filter (fun d => d.getAxisDependency = a) = [] :=
    List.filter_eq_nil_iff.mpr (by intro x hx; simpa using h x hx)
  rw [specAxisYMin_as_mapfold, specAxisYMax_as_mapfold, hfil]
  exact ⟨rfl, rfl⟩

/-- C8: after every sequence of `addEntry`, `removeEntry`, `addDataSet`,
`removeDataSet` and `clearValues` operations on a `ChartData` object (built
by the constructor from any initial data sets), all eight aggregate bound
fields — `mXMin`/`mXMax`/`mYMin`/`mYMax` and the per-axis left/right
y-bounds — equal the exact minima/maxima over all entries currently present
across all data sets, with the sentinel initial values when the relevant
entry collection is empty; no stale bound survives an add or remove. -/
theorem c8_bounds_exact_after_ops (sets : List DataSet) (ops : List Op) :
    boundsCorrect (ops.foldl applyOp (mkChartData sets)) :=
  boundsCorrect_foldl_applyOp ops _ (mkChartData_spec sets).2

/-- C7 (amended): for every out-of-range data-set index,
`getDataSetByIndex` returns `none` and `removeEntry` returns `false`
leaving the container unchanged; `removeEntryForXValue` returns `false`
(container unchanged) for indices `≥` the data-set count, but for negative
indices it raises a `TypeError` (member access on the `undefined` array
lookup) instead of returning `false`. -/
theorem c7_out_of_range_absence (cd : ChartData) (idx : ℤ)
    (hout : idx < 0 ∨ (cd.mDataSets.length : ℤ) ≤ idx) :
    getDataSetByIndex cd idx = none ∧
    (∀ e, removeEntry cd e idx = (false, cd)) ∧
    ((cd.mDataSets.length : ℤ) ≤ idx →
      ∀ x, removeEntryForXValue cd x idx = Except.ok (false, cd)) ∧
    (idx < 0 → ∀ x, removeEntryForXValue cd x idx = Except.error ()) := by
  have hlen : (0 : ℤ) ≤ (cd.mDataSets.length : ℤ) := Int.natCast_nonneg _
  refine ⟨?_, ?_, ?_, ?_⟩
  · unfold getDataSetByIndex
    rw [if_pos hout]
  · intro e
    unfold removeEntry
    rcases hout with hneg | hbig
    · rcases e with _ | e0
      · rw [if_pos (Or.inl rfl)]
      · rw [if_neg (by
          rintro (habs | habs)
          · exact Option.noConfusion habs
          · exact absurd (lt_of_le_of_lt habs hneg) (not_lt.mpr hlen))]
        have hj : jsIndex cd.mDataSets idx = none := by
          unfold jsIndex
          rw [if_neg (not_le.mpr hneg)]
        rw [hj]
    · rw [if_pos (Or.inr hbig)]
  · intro hbig x
    unfold removeEntryForXValue
    rw [if_pos hbig]
  · intro hneg x
    unfold removeEntryForXValue
    rw [if_neg (by
      intro habs
      exact absurd (lt_of_le_of_lt habs hneg) (not_lt.mpr hlen))]
    have hj : jsIndex cd.mDataSets idx = none := by
      unfold jsIndex
      rw [if_neg (not_le.mpr hneg)]
    rw [hj]

/-- A small concrete container used to exercise claim C7: one left-axis
data set holding the single entry `(1, 2)`. -/
def sampleData : ChartData :=
  mkChartData [{ entries := [{ x := 1, y := 2 }], axisDependency := AxisDependency.LEFT }]

/-- C7 counterexample: at the negative index `-1`, `removeEntryForXValue`
raises a `TypeError` (modelled `Except.error`) instead of returning
`false` as the claim states. -/
theorem c7_counterexample :
    removeEntryForXValue sampleData 1 (-1) = Except.error () := rfl

/-- C7 witness: the amended theorem applied at the too-large index `5`. -/
theorem c7_witness :
    getDataSetByIndex sampleData 5 = none ∧
    (∀ e, removeEntry sampleData e 5 = (false, sampleData)) ∧
    (((sampleData.mDataSets.length : ℤ) ≤ 5) →
      ∀ x, removeEntryForXValue sampleData x 5 = Except.ok (false, sampleData)) ∧
    ((5 : ℤ) < 0 → ∀ x, removeEntryForXValue sampleData x 5 = Except.error ()) :=
  c7_out_of_range_absence sampleData 5 (Or.inr (by decide))

/-- C10: when a `ChartData` object contains no left-axis data set,
`getYMin(LEFT)`/`getYMax(LEFT)` fall back to the right-axis bounds, and
symmetrically `getYMin(RIGHT)`/`getYMax(RIGHT)` fall back to the left-axis
bounds when no right-axis data set exists. -/
theorem c10_missing_axis_fallback (sets : List DataSet) :
    ((∀ d ∈ sets, d.getAxisDependency ≠ AxisDependency.LEFT) →
      getYMin (mkChartData sets) (some AxisDependency.LEFT)
          = (mkChartData sets).mRightAxisMin ∧
      getYMax (mkChartData sets) (some AxisDependency.LEFT)
          = (mkChartData sets).mRightAxisMax) ∧
    ((∀ d ∈ sets, d.getAxisDependency ≠ AxisDependency.RIGHT) →
      getYMin (mkChartData sets) (some AxisDependency.RIGHT)
          = (mkChartData sets).mLeftAxisMin ∧
      getYMax (mkChartData sets) (some AxisDependency.RIGHT)
          = (mkChartData sets).mLeftAxisMax) := by
  obtain ⟨hds, h1, h2, h3, h4, h5, h6, h7, h8⟩ :=
    And.intro (mkChartData_spec sets).1 (mkChartData_spec sets).2
  constructor
  · intro hnoleft
    obtain ⟨hsmin, hsmax⟩ :=
      specAxis_of_no_axis_set AxisDependency.LEFT sets hnoleft
    have hmin : (mkChartData sets).mLeftAxisMin = MAX_VALUE := by
      rw [h6, hds, hsmin]
    have hmax : (mkChartData sets).mLeftAxisMax = -MAX_VALUE := by
      rw [h5, hds, hsmax]
    constructor
    · simp only [getYMin, if_pos rfl, hmin, if_true]
    · simp only [getYMax, if_pos rfl, hmax, if_true]
  · intro hnoright
    obtain ⟨hsmin, hsmax⟩ :=
      specAxis_of_no_axis_set AxisDependency.RIGHT sets hnoright
    have hmin : (mkChartData sets).mRightAxisMin = MAX_VALUE := by
      rw [h8, hds, hsmin]
    have hmax : (mkChartData sets).mRightAxisMax = -MAX_VALUE := by
      rw [h7, hds, hsmax]
    constructor
    · simp only [getYMin, hmin, if_true]
      rw [if_neg (by intro habs; exact AxisDependency.noConfusion habs)]
    · simp only [getYMax, hmax, if_true]
      rw [if_neg (by intro habs; exact AxisDependency.noConfusion habs)]

/-- A container holding a single right-axis data set, used only to witness
claim C10. -/
def rightOnlyData : ChartData :=
  mkChartData [{ entries := [{ x := 1, y := 2 }], axisDependency := AxisDependency.RIGHT }]

/-- A container holding a single left-axis data set, used only to witness
claim C10. -/
def leftOnlyData : ChartData :=
  mkChartData [{ entries := [{ x := 3, y := 4 }], axisDependency := AxisDependency.LEFT }]

/-- C10 witness: a container with one right-axis set falls back on the
left query, and a container with one left-axis set falls back on the right
query. -/
theorem c10_witness :
    (getYMin rightOnlyData (some AxisDependency.LEFT) = rightOnlyData.mRightAxisMin ∧
     getYMax rightOnlyData (some AxisDependency.LEFT) = rightOnlyData.mRightAxisMax) ∧
    (getYMin leftOnlyData (some AxisDependency.RIGHT) = leftOnlyData.mLeftAxisMin ∧
     getYMax leftOnlyData (some AxisDependency.RIGHT) = leftOnlyData.mLeftAxisMax) :=
  ⟨(c10_missing_axis_fallback _).1 (by decide),
   (c10_missing_axis_fallback _).2 (by decide)⟩

end Data

namespace Highlighter

/-! Embedding of `src/charting/highlight/ChartHighlighter.ts`.

Pixel and domain values are real numbers, since `getDistance` is
`Math.hypot` (a square root); the definitions are therefore
noncomputable, with classical order decidability on `ℝ`. -/

/-- A point `{x, y}` as returned by the transformers. -/
structure Point where
  x : ℝ
  y : ℝ

/-- A highlight candidate as built by `buildHighlights` (`ChartHighlighter.ts`
lines 159–166): domain value, projected pixel position, data-set index and
axis dependency. -/
structure Highlight where
  x : ℝ
  y : ℝ
  xPx : ℝ
  yPx : ℝ
  dataSetIndex : ℕ
  axis : AxisDependency

/-- An entry of a highlighter data set (`xProperty`/`yProperty` default to
the plain `x`/`y` fields). -/
structure Entry where
  x : ℝ
  y : ℝ

/-- `Rounding` from `data/DataSet`; the highlighter only uses `CLOSEST`. -/
inductive Rounding where
  | UP
  | DOWN
  | CLOSEST

/-- A data set as seen by the highlighter: its entries, axis dependency and
highlight-enabled flag. -/
structure DataSet where
  entries : List Entry
  axisDependency : AxisDependency
  highlightEnabled : Bool

def DataSet.getAxisDependency (s : DataSet) : AxisDependency := s.axisDependency

def DataSet.isHighlightEnabled (s : DataSet) : Bool := s.highlightEnabled

/-- Modelled from the spec: `DataSet.getEntriesForXValue` (`DataSet.ts` is
not among the provided sources) — all entries at exactly the given
x-value ("fetch entries at that exact domain x-value", §4.2). -/
noncomputable def DataSet.getEntriesForXValue (s : DataSet) (xVal : ℝ) : List Entry :=
  s.entries.filter (fun e => e.x = xVal)

/-- Modelled from the spec: `DataSet.getEntryForXValue` with the CLOSEST
rounding policy — "fall back to the entry nearest that x-value (policy:
closest, ties broken by scan order — first match wins)" (§4.2), `none`
when the set has no entries at all.  The `closestToY` argument of the
source is always `NaN` at the embedded call site and is omitted; only the
CLOSEST policy is described by the spec and used by the highlighter. -/
noncomputable def DataSet.getEntryForXValue (s : DataSet) (xVal : ℝ)
    (rounding : Rounding) : Option Entry :=
  s.entries.foldl
    (fun acc e =>
      match acc with
      | none => some e
      | some b => if |e.x - xVal| < |b.x - xVal| then some e else some b)
    none

/-- Modelled from the spec: a transformer is a pure function of the current
matrix state (§4.1); `Transformer.ts` is not among the provided sources. -/
structure Transformer where
  getValuesByTouchPoint : ℝ → ℝ → Point
  getPixelForValues : ℝ → ℝ → Point

/-- The chart data as consumed by the highlighter. -/
structure ChartData where
  dataSets : List DataSet

/-- The data-provider capabilities the highlighter reads from its chart. -/
structure Chart where
  transformerLeft : Transformer
  transformerRight : Transformer
  data : Option ChartData
  maxHighlightDistance : ℝ

/-- `chart.getTransformer(axisDependency)`: the independent left/right
transformers. -/
def Chart.getTransformer (c : Chart) (a : AxisDependency) : Transformer :=
  match a with
  | AxisDependency.LEFT => c.transformerLeft
  | AxisDependency.RIGHT => c.transformerRight

/-- The mutable state of a `ChartHighlighter`: the highlight buffer
(`mHighlightBuffer`, `ChartHighlighter.ts` line 18). -/
structure HighlighterState where
  mHighlightBuffer : List Highlight

/-- `getDistance` (`ChartHighlighter.ts` lines 213–217):
`Math.hypot(x1 - x2, y1 - y2)`. -/
noncomputable def getDistance (x1 y1 x2 y2 : ℝ) : ℝ :=
  Real.sqrt ((x1 - x2) ^ 2 + (y1 - y2) ^ 2)

/-- `getHighlightPos` (`ChartHighlighter.ts` lines 98–100). -/
def getHighlightPos (h : Highlight) : ℝ := h.yPx

/-- `getMinimumDistance` (`ChartHighlighter.ts` lines 81–96).  The loop
body reads `closestValues.get(i)` (line 85), but `closestValues` is the
plain array `mHighlightBuffer`, which has no `.get` method, and it would
then call `high.getAxis()` (line 87) on an object literal that only
carries an `.axis` field (`buildHighlights`, lines 159–166); the first
loop iteration therefore raises a `TypeError`, modelled as
`Except.error`.  Only the empty list completes the loop and returns the
`Number.MAX_VALUE` sentinel.  (Contrast `getClosestHighlightByPixel`,
which correctly uses `closestValues[i]` and `high.axis`.) -/
noncomputable def getMinimumDistance (closestValues : List Highlight)
    (pos : ℝ) (axis : AxisDependency) : Except Unit ℝ :=
  closestValues.foldl
    (fun _ _ => Except.error ())
    (Except.ok ((MAX_VALUE : ℚ) : ℝ))

/-- The axis-resolution step of `getHighlightForX` (`ChartHighlighter.ts`
lines 62–65): both `getMinimumDistance` calls run before the ternary
`leftAxisMinDist < rightAxisMinDist ? LEFT : RIGHT`, so a `TypeError`
raised by either propagates out of the step. -/
noncomputable def resolveAxis (closestValues : List Highlight) (y : ℝ) :
    Except Unit AxisDependency :=
  match getMinimumDistance closestValues y AxisDependency.LEFT with
  | Except.error e => Except.error e
  | Except.ok leftAxisMinDist =>
      match getMinimumDistance closestValues y AxisDependency.RIGHT with
      | Except.error e => Except.error e
      | Except.ok rightAxisMinDist =>
          Except.ok
            (if leftAxisMinDist < rightAxisMinDist then AxisDependency.LEFT
             else AxisDependency.RIGHT)

/-- The loop body of `getClosestHighlightByPixel` (`ChartHighlighter.ts`
lines 188–199), carrying the pair of mutable locals `(closest, distance)`. -/
noncomputable def closestStep (x y : ℝ) (axis : Option AxisDependency)
    (acc : Option Highlight × ℝ) (high : Highlight) : Option Highlight × ℝ :=
  if axis = none ∨ axis = some high.axis then
    let cDistance := getDistance x y high.xPx high.yPx
    if cDistance < acc.2 then (some high, cDistance) else acc
  else acc

/-- `getClosestHighlightByPixel` (`ChartHighlighter.ts` lines 184–202). -/
noncomputable def getClosestHighlightByPixel (closestValues : List Highlight)
    (x y : ℝ) (axis : Option AxisDependency) (minSelectionDistance : ℝ) :
    Option Highlight :=
  (closestValues.foldl (closestStep x y axis)
    ((none : Option Highlight), minSelectionDistance)).1

/-- `buildHighlights` (`ChartHighlighter.ts` lines 138–170). -/
noncomputable def buildHighlights (c : Chart) (set : DataSet)
    (dataSetIndex : ℕ) (xVal : ℝ) (rounding : Rounding) : List Highlight :=
  let entries := set.getEntriesForXValue xVal
  let entries :=
    if entries.length = 0 then
      match set.getEntryForXValue xVal rounding with
      | none => entries
      | some closest => set.getEntriesForXValue closest.x
    else entries
  entries.map (fun e =>
    let pixels := (c.getTransformer set.getAxisDependency).getPixelForValues e.x e.y
    { x := e.x, y := e.y, xPx := pixels.x, yPx := pixels.y,
      dataSetIndex := dataSetIndex, axis := set.getAxisDependency })

/-- `getHighlightsAtXValue` (`ChartHighlighter.ts` lines 111–127): the
highlight buffer is reset to `[]` first, then refilled from the data sets
whose highlighting is enabled. -/
noncomputable def getHighlightsAtXValue (c : Chart) (st : HighlighterState)
    (xVal x y : ℝ) : List Highlight × HighlighterState :=
  let buffer : List Highlight := []
  match c.data with
  | none => (buffer, { mHighlightBuffer := buffer })
  | some data =>
      let buffer := data.dataSets.enum.foldl
        (fun buf p =>
          if p.2.isHighlightEnabled then
            buf ++ buildHighlights c p.2 p.1 xVal Rounding.CLOSEST
          else buf)
        buffer
      (buffer, { mHighlightBuffer := buffer })

/-- `getHighlightForX` (`ChartHighlighter.ts` lines 55–70): `null` for an
empty candidate list (line 58); otherwise the axis resolution runs first
and its `TypeError` propagates, so the closest-by-pixel selection is never
reached when candidates exist. -/
noncomputable def getHighlightForX (c : Chart) (st : HighlighterState)
    (xVal x y : ℝ) : Except Unit (Option Highlight) × HighlighterState :=
  let res := getHighlightsAtXValue c st xVal x y
  let closestValues := res.1
  if closestValues.length = 0 then (Except.ok none, res.2)
  else
    match resolveAxis closestValues y with
    | Except.error e => (Except.error e, res.2)
    | Except.ok axis =>
        (Except.ok (getClosestHighlightByPixel closestValues x y (some axis)
          c.maxHighlightDistance), res.2)

/-- `getValsForTouch` (`ChartHighlighter.ts` lines 41–45): any transformer
(by convention the left one) converts the touch point to domain values. -/
noncomputable def getValsForTouch (c : Chart) (x y : ℝ) : Point :=
  (c.getTransformer AxisDependency.LEFT).getValuesByTouchPoint x y

/-- `getHighlight` (`ChartHighlighter.ts` lines 24–31). -/
noncomputable def getHighlight (c : Chart) (st : HighlighterState) (x y : ℝ) :
    Except Unit (Option Highlight) × HighlighterState :=
  let pos := getValsForTouch c x y
  let xVal := pos.x
  getHighlightForX c st xVal x y

/-! ### Error behaviour of the axis-resolution step (C1, C9) -/

lemma foldl_const_error (l : List Highlight) :
    l.foldl
        (fun (_ : Except Unit ℝ) (_ : Highlight) => (Except.error () : Except Unit ℝ))
        (Except.error ())
      = Except.error () := by
  induction l with
  | nil => rfl
  | cons a l ih => exact ih

lemma getMinimumDistance_of_ne_nil (closestValues : List Highlight) (pos : ℝ)
    (axis : AxisDependency) (hne : closestValues ≠ []) :
    getMinimumDistance closestValues pos axis = Except.error () := by
  obtain ⟨h0, rest, rfl⟩ := List.exists_cons_of_ne_nil hne
  unfold getMinimumDistance
  simp only [List.foldl_cons]
  exact foldl_const_error rest

lemma resolveAxis_of_ne_nil (closestValues : List Highlight) (y : ℝ)
    (hne : closestValues ≠ []) :
    resolveAxis closestValues y = Except.error () := by
  unfold resolveAxis
  rw [getMinimumDistance_of_ne_nil closestValues y AxisDependency.LEFT hne]

/-! ### C9: determinism of the highlighter -/

/-- C9 (amended): the highlighter is deterministic — for every fixed chart
state and touch point, a second `getHighlight` call (from the state the
first call left behind) produces the identical outcome — the identical
candidate, both `none`, or both the identical `TypeError` — and the
identical buffer state: the highlight buffer is overwritten at the start
of every query and never influences the result. -/
theorem c9_highlighter_deterministic (c : Chart) (st : HighlighterState)
    (x y : ℝ) :
    (getHighlight c ((getHighlight c st x y).2) x y).1
        = (getHighlight c st x y).1 ∧
    (getHighlight c ((getHighlight c st x y).2) x y).2
        = (getHighlight c st x y).2 :=
  ⟨rfl, rfl⟩

/-- The transformers of the C9 counterexample chart: constant maps taking
every touch pixel to the domain point `(1, 1)` and every domain point to
the pixel `(1, 1)`. -/
def cexTransformer : Transformer :=
  { getValuesByTouchPoint := fun _ _ => { x := 1, y := 1 }
    getPixelForValues := fun _ _ => { x := 1, y := 1 } }

/-- The single highlight-enabled data set of the C9 counterexample chart:
one entry at domain x = 1. -/
def cexDataSet : DataSet :=
  { entries := [{ x := 1, y := 2 }]
    axisDependency := AxisDependency.LEFT
    highlightEnabled := true }

/-- A chart holding one highlight-enabled entry at domain x = 1, for the
C9 counterexample. -/
def cexChart : Chart :=
  { transformerLeft := cexTransformer
    transformerRight := cexTransformer
    data := some { dataSets := [cexDataSet] }
    maxHighlightDistance := 500 }

lemma cex_buffer_eval (st : HighlighterState) :
    (getHighlightsAtXValue cexChart st ((1 : ℝ)) 0 0).1
      = [{ x := 1, y := 2, xPx := 1, yPx := 1, dataSetIndex := 0,
           axis := AxisDependency.LEFT }] := by
  have hfil : DataSet.getEntriesForXValue cexDataSet 1
      = [{ x := (1 : ℝ), y := 2 }] := by
    simp [DataSet.getEntriesForXValue, cexDataSet]
  have hen : cexDataSet.isHighlightEnabled = true := rfl
  have hax : cexDataSet.getAxisDependency = AxisDependency.LEFT := rfl
  simp [getHighlightsAtXValue, cexChart, buildHighlights, hfil, hen, hax,
    Chart.getTransformer, cexTransformer, List.enum, List.enumFrom]

lemma getHighlight_cex_error (st : HighlighterState) :
    (getHighlight cexChart st 0 0).1 = Except.error () := by
  show (getHighlightForX cexChart st 1 0 0).1 = Except.error ()
  simp only [getHighlightForX]
  rw [cex_buffer_eval st]
  rw [if_neg (by simp)]
  rw [resolveAxis_of_ne_nil _ _ (by simp)]

/-- C9 counterexample: on a chart with one highlightable entry, a
`getHighlight` call (and the identical repeat call) raises the `TypeError`
from the axis-resolution step instead of returning a candidate or `none`:
repeated calls are deterministic, but the claimed outcomes — the identical
candidate, or both `none` — do not occur whenever a candidate exists. -/
theorem c9_counterexample :
    (getHighlight cexChart { mHighlightBuffer := [] } 0 0).1
        = Except.error () ∧
    (getHighlight cexChart
        ((getHighlight cexChart { mHighlightBuffer := [] } 0 0).2) 0 0).1
        = Except.error () ∧
    (Except.error () : Except Unit (Option Highlight)) ≠ Except.ok none :=
  ⟨getHighlight_cex_error _, getHighlight_cex_error _,
   fun habs => Except.noConfusion habs⟩

/-! ### C1: the nearest-axis tie-break -/

/-- A left-axis candidate 10 vertical pixels from the touch position. -/
def hLeftTie : Highlight :=
  { x := 0, y := 0, xPx := 0, yPx := 10, dataSetIndex := 0,
    axis := AxisDependency.LEFT }

/-- A right-axis candidate also 10 vertical pixels from the touch
position: together with `hLeftTie` an equidistant (tie) candidate pair. -/
def hRightTie : Highlight :=
  { x := 0, y := 0, xPx := 0, yPx := 10, dataSetIndex := 1,
    axis := AxisDependency.RIGHT }

/-- C1 counterexample: at the equidistant candidate pair (a left-axis and
a right-axis candidate, both 10 vertical pixels from the touch position),
the axis-resolution step raises the `TypeError` instead of choosing the
left axis: `closestValues.get(0)` is evaluated on the method-less plain
buffer before any distance comparison or tie-break. -/
theorem c1_counterexample :
    getMinimumDistance [hLeftTie, hRightTie] 0 AxisDependency.LEFT
        = Except.error () ∧
    resolveAxis [hLeftTie, hRightTie] 0 = Except.error () ∧
    resolveAxis [hLeftTie, hRightTie] 0 ≠ Except.ok AxisDependency.LEFT := by
  refine ⟨getMinimumDistance_of_ne_nil _ _ _ (by simp),
    resolveAxis_of_ne_nil _ _ (by simp), ?_⟩
  rw [resolveAxis_of_ne_nil _ _ (by simp)]
  intro habs
  exact Except.noConfusion habs

/-- C1 (amended): for every non-empty candidate list and touch y-position
— in particular when the left-axis and right-axis candidates are
equidistant — the axis-resolution step of `getHighlightForX` raises a
`TypeError` (`closestValues.get` is not a function on the plain buffer
array) before the tie-break of line 65 can run, so no axis — in
particular not the left one — is ever chosen. -/
theorem c1_axis_resolution_throws (closestValues : List Highlight) (y : ℝ)
    (hne : closestValues ≠ []) :
    resolveAxis closestValues y = Except.error () ∧
    resolveAxis closestValues y ≠ Except.ok AxisDependency.LEFT := by
  refine ⟨resolveAxis_of_ne_nil _ _ hne, ?_⟩
  rw [resolveAxis_of_ne_nil _ _ hne]
  intro habs
  exact Except.noConfusion habs

/-- C1 witness: the amended theorem applied at the concrete equidistant
candidate pair. -/
theorem c1_witness :
    resolveAxis [hLeftTie, hRightTie] 0 = Except.error () ∧
    resolveAxis [hLeftTie, hRightTie] 0 ≠ Except.ok AxisDependency.LEFT :=
  c1_axis_resolution_throws [hLeftTie, hRightTie] 0 (by simp)

/-! ### C2: characterization of `getClosestHighlightByPixel` -/

lemma closestStep_eval_update {x y : ℝ} {a : AxisDependency}
    {acc : Option Highlight × ℝ} {high : Highlight}
    (hax : high.axis = a)
    (hlt : getDistance x y high.xPx high.yPx < acc.2) :
    closestStep x y (some a) acc high
      = (some high, getDistance x y high.xPx high.yPx) := by
  simp only [closestStep]
  rw [if_pos (Or.inr (by rw [hax])), if_pos hlt]

lemma closestStep_eval_keep_far {x y : ℝ} {a : AxisDependency}
    {acc : Option Highlight × ℝ} {high : Highlight}
    (hge : ¬ getDistance x y high.xPx high.yPx < acc.2) :
    closestStep x y (some a) acc high = acc := by
  simp only [closestStep]
  by_cases hax : (some a = (none : Option AxisDependency) ∨
      (some a : Option AxisDependency) = some high.axis)
  · rw [if_pos hax, if_neg hge]
  · rw [if_neg hax]

lemma closestStep_eval_keep_off {x y : ℝ} {a : AxisDependency}
    {acc : Option Highlight × ℝ} {high : Highlight}
    (hax : ¬ high.axis = a) :
    closestStep x y (some a) acc high = acc := by
  simp only [closestStep]
  rw [if_neg (by
    rintro (habs | habs)
    · exact Option.noConfusion habs
    · exact hax (Option.some_injective _ habs).symm)]

lemma closestStep_snd_le (x y : ℝ) (axis : Option AxisDependency)
    (acc : Option Highlight × ℝ) (high : Highlight) :
    (closestStep x y axis acc high).2 ≤ acc.2 := by
  simp only [closestStep]
  split
  · split
    · next hlt => exact le_of_lt hlt
    · exact le_refl _
  · exact le_refl _

lemma foldl_closestStep_snd_le (x y : ℝ) (axis : Option AxisDependency)
    (l : List Highlight) : ∀ acc : Option Highlight × ℝ,
    (l.foldl (closestStep x y axis) acc).2 ≤ acc.2 := by
  induction l with
  | nil => intro acc; exact le_refl _
  | cons h0 rest ih =>
      intro acc
      exact le_trans (ih (closestStep x y axis acc h0))
        (closestStep_snd_le x y axis acc h0)

lemma foldl_closestStep_min (x y : ℝ) (a : AxisDependency)
    (l : List Highlight) : ∀ (acc : Option Highlight × ℝ) (h : Highlight),
    h ∈ l → h.axis = a →
    (l.foldl (closestStep x y (some a)) acc).2
      ≤ getDistance x y h.xPx h.yPx := by
  induction l with
  | nil => intro acc h hmem; simp at hmem
  | cons h0 rest ih =>
      intro acc h hmem hax
      rcases List.mem_cons.mp hmem with rfl | hmem2
      · refine le_trans (foldl_closestStep_snd_le x y (some a) rest _) ?_
        by_cases hlt : getDistance x y h.xPx h.yPx < acc.2
        · rw [closestStep_eval_update hax hlt]
        · rw [closestStep_eval_keep_far hlt]
          exact not_lt.mp hlt
      · exact ih (closestStep x y (some a) acc h0) h hmem2 hax

lemma foldl_closestStep_result (x y : ℝ) (a : AxisDependency)
    (l : List Highlight) : ∀ acc : Option Highlight × ℝ,
    (l.foldl (closestStep x y (some a)) acc = acc) ∨
    (∃ h, h ∈ l ∧ h.axis = a ∧
      l.foldl (closestStep x y (some a)) acc
          = (some h, getDistance x y h.xPx h.yPx) ∧
      getDistance x y h.xPx h.yPx < acc.2) := by
  induction l with
  | nil => intro acc; exact Or.inl rfl
  | cons h0 rest ih =>
      intro acc
      simp only [List.foldl_cons]
      by_cases hax : h0.axis = a
      · by_cases hlt : getDistance x y h0.xPx h0.yPx < acc.2
        · rw [closestStep_eval_update hax hlt]
          rcases ih (some h0, getDistance x y h0.xPx h0.yPx) with heq | ⟨h, hm, hha, heq, hlt2⟩
          · exact Or.inr ⟨h0, List.mem_cons_self h0 rest, hax, heq, hlt⟩
          · exact Or.inr ⟨h, List.mem_cons_of_mem h0 hm, hha, heq,
              lt_trans hlt2 hlt⟩
        · rw [closestStep_eval_keep_far hlt]
          rcases ih acc with heq | ⟨h, hm, hha, heq, hlt2⟩
          · exact Or.inl heq
          · exact Or.inr ⟨h, List.mem_cons_of_mem h0 hm, hha, heq, hlt2⟩
      · rw [closestStep_eval_keep_off hax]
        rcases ih acc with heq | ⟨h, hm, hha, heq, hlt2⟩
        · exact Or.inl heq
        · exact Or.inr ⟨h, List.mem_cons_of_mem h0 hm, hha, heq, hlt2⟩

lemma foldl_closestStep_none (x y : ℝ) (a : AxisDependency)
    (l : List Highlight) : ∀ acc : Option Highlight × ℝ,
    (l.foldl (closestStep x y (some a)) acc).1 = none →
    acc.1 = none ∧
    ∀ h ∈ l, h.axis = a → ¬(getDistance x y h.xPx h.yPx < acc.2) := by
  induction l with
  | nil => intro acc hres; exact ⟨hres, by simp⟩
  | cons h0 rest ih =>
      intro acc hres
      simp only [List.foldl_cons] at hres
      by_cases hax : h0.axis = a
      · by_cases hlt : getDistance x y h0.xPx h0.yPx < acc.2
        · rw [closestStep_eval_update hax hlt] at hres
          obtain ⟨habs, _⟩ := ih _ hres
          exact absurd habs (by simp)
        · rw [closestStep_eval_keep_far hlt] at hres
          obtain ⟨h1, h2⟩ := ih acc hres
          refine ⟨h1, ?_⟩
          intro h hm hha
          rcases List.mem_cons.mp hm with rfl | hm2
          · exact hlt
          · exact h2 h hm2 hha
      · rw [closestStep_eval_keep_off hax] at hres
        obtain ⟨h1, h2⟩ := ih acc hres
        refine ⟨h1, ?_⟩
        intro h hm hha
        rcases List.mem_cons.mp hm with rfl | hm2
        · exact absurd hha hax
        · exact h2 h hm2 hha

/-- C2: restricted to the winning axis, `getClosestHighlightByPixel`
returns a candidate on that axis whose Euclidean pixel distance
(`Math.hypot`) to the touch point is smallest among the axis candidates
and strictly below the maximum selection distance `d`; and it returns
`none` exactly when no candidate on that axis lies strictly within `d`. -/
theorem c2_closest_by_pixel_spec (vals : List Highlight) (x y : ℝ)
    (a : AxisDependency) (d : ℝ) :
    (∀ h, getClosestHighlightByPixel vals x y (some a) d = some h →
        h ∈ vals ∧ h.axis = a ∧ getDistance x y h.xPx h.yPx < d ∧
        ∀ h2 ∈ vals, h2.axis = a →
          getDistance x y h.xPx h.yPx ≤ getDistance x y h2.xPx h2.yPx) ∧
    (getClosestHighlightByPixel vals x y (some a) d = none ↔
        ∀ h2 ∈ vals, h2.axis = a →
          ¬(getDistance x y h2.xPx h2.yPx < d)) := by
  constructor
  · intro h hres
    unfold getClosestHighlightByPixel at hres
    rcases foldl_closestStep_result x y a vals (none, d) with heq |
      ⟨h2, hm, hax, heq, hlt⟩
    · rw [heq] at hres
      exact absurd hres (by simp)
    · rw [heq] at hres
      obtain rfl : h2 = h := by simpa using hres
      refine ⟨hm, hax, hlt, ?_⟩
      intro h3 hm3 hax3
      have hmin := foldl_closestStep_min x y a vals (none, d) h3 hm3 hax3
      rw [heq] at hmin
      simpa using hmin
  · constructor
    · intro hnone h2 hm2 hax2
      unfold getClosestHighlightByPixel at hnone
      exact (foldl_closestStep_none x y a vals (none, d) hnone).2 h2 hm2 hax2
    · intro hall
      unfold getClosestHighlightByPixel
      rcases foldl_closestStep_result x y a vals (none, d) with heq |
        ⟨h2, hm, hax, heq, hlt⟩
      · rw [heq]
      · exact absurd hlt (hall h2 hm hax)

/-- A candidate exactly at the touch point (distance 0), for the C2
witness. -/
def wNear : Highlight :=
  { x := 0, y := 0, xPx := 0, yPx := 0, dataSetIndex := 0,
    axis := AxisDependency.LEFT }

/-- A candidate 5 pixels away from the touch point, for the C2 witness. -/
def wFar : Highlight :=
  { x := 0, y := 0, xPx := 5, yPx := 0, dataSetIndex := 0,
    axis := AxisDependency.LEFT }

lemma getDistance_origin : getDistance 0 0 0 0 = 0 := by
  unfold getDistance
  norm_num

lemma getDistance_five : getDistance 0 0 5 0 = 5 := by
  unfold getDistance
  rw [show ((0 : ℝ) - 5) ^ 2 + ((0 : ℝ) - 0) ^ 2 = 5 ^ 2 by norm_num]
  exact Real.sqrt_sq (by norm_num)

lemma gchbp_eval_near :
    getClosestHighlightByPixel [wNear] 0 0 (some AxisDependency.LEFT) 1
      = some wNear := by
  unfold getClosestHighlightByPixel
  simp only [List.foldl_cons, List.foldl_nil]
  rw [closestStep_eval_update (show wNear.axis = AxisDependency.LEFT from rfl)
    (by
      rw [show getDistance 0 0 wNear.xPx wNear.yPx = 0 from getDistance_origin]
      norm_num)]

/-- C2 witness: at the touch point `(0,0)` with selection distance 1, the
zero-distance candidate is returned with all the guarantees of the
theorem, and a candidate at distance 5 yields `none`. -/
theorem c2_witness :
    (wNear ∈ [wNear] ∧ wNear.axis = AxisDependency.LEFT ∧
      getDistance 0 0 wNear.xPx wNear.yPx < 1 ∧
      ∀ h2 ∈ [wNear], h2.axis = AxisDependency.LEFT →
        getDistance 0 0 wNear.xPx wNear.yPx
          ≤ getDistance 0 0 h2.xPx h2.yPx) ∧
    getClosestHighlightByPixel [wFar] 0 0 (some AxisDependency.LEFT) 1
      = none :=
  ⟨(c2_closest_by_pixel_spec [wNear] 0 0 AxisDependency.LEFT 1).1 wNear
      gchbp_eval_near,
   (c2_closest_by_pixel_spec [wFar] 0 0 AxisDependency.LEFT 1).2.mpr (by
      intro h2 hm _
      obtain rfl : h2 = wFar := List.mem_singleton.mp hm
      have hd : getDistance 0 0 wFar.xPx wFar.yPx = 5 := getDistance_five
      rw [hd]
      norm_num)⟩

end Highlighter

namespace Listener

/-! Embedding of `src/charting/listener/BarLineChartTouchListener.ts`.
Numbers are exact rationals; the gesture-recognizer event payloads and the
chart/viewport capability flags are inputs. -/

/-- Gesture states from the external gesture-handler library; the listener
dispatches on ACTIVE, END and CANCELLED. -/
inductive GestureState where
  | UNDETERMINED
  | FAILED
  | BEGAN
  | CANCELLED
  | ACTIVE
  | END
deriving DecidableEq, Repr

/-- The `extraData` payload fields read by the listener. -/
structure ExtraData where
  x : ℚ
  y : ℚ
  focalX : ℚ
  focalY : ℚ
  scale : ℚ
  translationX : ℚ
  translationY : ℚ
  velocityX : ℚ
  velocityY : ℚ
  numberOfPointers : ℕ
  positions : List ℚ
deriving DecidableEq, Repr

/-- A gesture event: state, previous state and payload. -/
structure EventData where
  state : GestureState
  prevState : GestureState
  extraData : ExtraData
deriving DecidableEq, Repr

/-- Modelled from the spec: the touch modes of the parent class
`ChartTouchListener` (its file is not among the provided sources; §3 of the
spec lists the enumerated states). -/
inductive TouchMode where
  | NONE
  | DRAG
  | X_ZOOM
  | Y_ZOOM
  | PINCH_ZOOM
  | POST_ZOOM
deriving DecidableEq, Repr

/-- Modelled from the spec: the gesture kinds recorded in `mLastGesture`
(parent class `ChartTouchListener`, not among the provided sources). -/
inductive ChartGesture where
  | NONE
  | DRAG
  | X_ZOOM
  | Y_ZOOM
  | PINCH_ZOOM
  | SINGLE_TAP
  | DOUBLE_TAP
deriving DecidableEq, Repr

/-- Modelled from the spec: the affine transform of the ui-canvas `Matrix`
(external library): "an affine matrix (2×3 or equivalent)" (§3), with
`postTranslate`/`postScale` composing a translation / a pivoted scale onto
it (§4.1). -/
structure Matrix where
  scaleX : ℚ
  skewX : ℚ
  transX : ℚ
  skewY : ℚ
  scaleY : ℚ
  transY : ℚ
deriving DecidableEq, Repr

/-- Compose a translation after the matrix. -/
def Matrix.postTranslate (m : Matrix) (dx dy : ℚ) : Matrix :=
  { m with transX := m.transX + dx, transY := m.transY + dy }

/-- Compose a scale about the pivot `(px, py)` after the matrix. -/
def Matrix.postScale (m : Matrix) (sx sy px py : ℚ) : Matrix :=
  { scaleX := sx * m.scaleX, skewX := sx * m.skewX
    transX := sx * m.transX + (1 - sx) * px
    skewY := sy * m.skewY, scaleY := sy * m.scaleY
    transY := sy * m.transY + (1 - sy) * py }

/-- The event names the listener notifies the chart with. -/
inductive EventName where
  | pan
  | pinch
  | zoom
  | tap
  | doubleTap
  | translate
deriving DecidableEq, Repr

/-- The capability interface the listener consumes from the host chart and
its viewport handler (external collaborators, §6 of the spec): enabled
flags, zoom-bounds queries, axis inversion, content offsets, registered
listeners, and the chart data. -/
structure Chart where
  dragEnabled : Bool
  dragXEnabled : Bool
  dragYEnabled : Bool
  scaleXEnabled : Bool
  scaleYEnabled : Bool
  pinchZoomEnabled : Bool
  doubleTapToZoomEnabled : Bool
  highlightPerDragEnabled : Bool
  highlightPerTapEnabled : Bool
  canZoomInMoreX : Bool
  canZoomOutMoreX : Bool
  canZoomInMoreY : Bool
  canZoomOutMoreY : Bool
  anyAxisInverted : Bool
  invertedLeft : Bool
  invertedRight : Bool
  offsetLeft : ℚ
  offsetTop : ℚ
  offsetBottom : ℚ
  chartHeight : ℚ
  listeners : List EventName
  data : Data.ChartData
deriving DecidableEq, Repr

/-- `chart.hasListeners(eventName)`. -/
def Chart.hasListeners (c : Chart) (name : EventName) : Bool :=
  c.listeners.contains name

/-- `chart.isInverted(axisDependency)`. -/
def Chart.isInverted (c : Chart) (a : AxisDependency) : Bool :=
  match a with
  | AxisDependency.LEFT => c.invertedLeft
  | AxisDependency.RIGHT => c.invertedRight

/-- The mutable fields of `BarLineChartTouchListener` used by the embedded
handlers (lines 38–55; `mTouchMode`/`mLastGesture` live in the parent
class). -/
structure ListenerState where
  mMatrix : Matrix
  mSavedMatrix : Matrix
  mTouchMode : TouchMode
  mLastGesture : ChartGesture
  mSavedXDist : ℚ
  mSavedYDist : ℚ
  mTouchPointCenterX : ℚ
  mTouchPointCenterY : ℚ
  mDecelerationVelocityX : ℚ
  mDecelerationVelocityY : ℚ
  mClosestDataSetToTouch : Option AxisDependency
deriving DecidableEq, Repr

/-- The outward effects a handler requests from the chart (notifications,
scroll control, redraws, zoom calls, the viewport refresh). -/
inductive Effect where
  | notify (name : EventName)
  | zoom (scaleX scaleY pivotX pivotY : ℚ)
  | disableScroll
  | enableScroll
  | invalidate
  | calculateOffsets
  | refreshViewport
deriving DecidableEq, Repr

/-- `inverted()` (lines 538–542): the highlighted series' axis when one is
tracked, otherwise "any axis inverted". -/
def inverted (c : Chart) (st : ListenerState) : Bool :=
  match st.mClosestDataSetToTouch with
  | none => c.anyAxisInverted
  | some ds => c.isInverted ds

/-- `saveTouchStart` (lines 446–448): capture the live matrix. -/
def saveTouchStart (st : ListenerState) : ListenerState :=
  { st with mSavedMatrix := st.mMatrix }

/-- `getXDist` (lines 491–494): inter-finger x-distance,
`|positions[0] - positions[2]|`. -/
def getXDist (e : EventData) : ℚ :=
  |e.extraData.positions.getD 0 0 - e.extraData.positions.getD 2 0|

/-- `getYDist` (lines 503–506): inter-finger y-distance,
`|positions[1] - positions[3]|`. -/
def getYDist (e : EventData) : ℚ :=
  |e.extraData.positions.getD 1 0 - e.extraData.positions.getD 3 0|

/-- `getTrans` (lines 517–531): translate a touch pixel into content
coordinates, flipping y when the axis is inverted. -/
def getTrans (c : Chart) (st : ListenerState) (x y : ℚ) : ℚ × ℚ :=
  let xTrans := x - c.offsetLeft
  let yTrans :=
    if inverted c st then -(y - c.offsetTop)
    else -(c.chartHeight - y - c.offsetBottom)
  (xTrans, yTrans)

/-- `performDrag` (lines 455–468): reset the live matrix to the saved one
and compose the (possibly y-inverted) translation onto it. -/
def performDrag (c : Chart) (st : ListenerState) (distanceX distanceY : ℚ) :
    ListenerState × List Effect :=
  let st := { st with mLastGesture := ChartGesture.DRAG }
  let st := { st with mMatrix := st.mSavedMatrix }
  let dy := if inverted c st then -distanceY else distanceY
  let st := { st with mMatrix := st.mMatrix.postTranslate distanceX dy }
  (st,
    if c.hasListeners EventName.translate then [Effect.notify EventName.translate]
    else [])

/-- One drag-move event as routed by `onPanGestureTouch` in DRAG mode: the
state part of `performDrag` (the trailing viewport refresh, line 294, is
the external `ViewPortHandler.refresh`). -/
def dragMove (c : Chart) (st : ListenerState) (ev : ℚ × ℚ) : ListenerState :=
  (performDrag c st ev.1 ev.2).1

/-- `onPinchGestureState` (lines 315–359). -/
def onPinchGestureState (c : Chart) (st : ListenerState) (event : EventData) :
    ListenerState × List Effect :=
  if !c.scaleXEnabled && !c.scaleYEnabled then (st, [])
  else
    match event.state with
    | GestureState.ACTIVE =>
        let st := saveTouchStart st
        let st := { st with mSavedXDist := getXDist event }
        let st := { st with mSavedYDist := getYDist event }
        let st :=
          { st with
            mTouchMode :=
              if c.pinchZoomEnabled then TouchMode.PINCH_ZOOM
              else if c.scaleXEnabled ≠ c.scaleYEnabled then
                (if c.scaleXEnabled then TouchMode.X_ZOOM else TouchMode.Y_ZOOM)
              else if st.mSavedXDist > st.mSavedYDist then TouchMode.X_ZOOM
              else TouchMode.Y_ZOOM }
        let st :=
          { st with
            mTouchPointCenterX := event.extraData.focalX
            mTouchPointCenterY := event.extraData.focalY }
        (st, [Effect.disableScroll])
    | GestureState.END | GestureState.CANCELLED =>
        if st.mTouchMode = TouchMode.X_ZOOM ∨ st.mTouchMode = TouchMode.Y_ZOOM ∨
            st.mTouchMode = TouchMode.PINCH_ZOOM ∨
            st.mTouchMode = TouchMode.POST_ZOOM then
          ({ st with mTouchMode := TouchMode.NONE },
            [Effect.calculateOffsets, Effect.invalidate, Effect.enableScroll])
        else (st, [Effect.enableScroll])
    | _ => (st, [])

/-- `onPinchGestureTouch` (lines 361–434).  The trailing viewport refresh
(line 431) delegates to the external `ViewPortHandler` and is recorded as
an effect. -/
def onPinchGestureTouch (c : Chart) (st : ListenerState) (event : EventData) :
    ListenerState × List Effect :=
  if !c.scaleXEnabled && !c.scaleYEnabled then (st, [])
  else if event.state ≠ GestureState.ACTIVE then (st, [])
  else
    let pinchEffects :=
      if c.hasListeners EventName.pinch then [Effect.notify EventName.pinch]
      else []
    if st.mTouchMode = TouchMode.X_ZOOM ∨ st.mTouchMode = TouchMode.Y_ZOOM ∨
        st.mTouchMode = TouchMode.PINCH_ZOOM then
      let branch : ListenerState × List Effect :=
        if st.mTouchMode = TouchMode.PINCH_ZOOM then
          let st := { st with mLastGesture := ChartGesture.PINCH_ZOOM }
          let t := getTrans c st st.mTouchPointCenterX st.mTouchPointCenterY
          let scale := event.extraData.scale
          let isZoomingOut : Bool := decide (scale < 1)
          let canZoomMoreX :=
            if isZoomingOut then c.canZoomOutMoreX else c.canZoomInMoreX
          let canZoomMoreY :=
            if isZoomingOut then c.canZoomOutMoreY else c.canZoomInMoreY
          let scaleX := if c.scaleXEnabled then scale else 1
          let scaleY := if c.scaleYEnabled then scale else 1
          let st :=
            if canZoomMoreY || canZoomMoreX then
              { st with mMatrix := st.mSavedMatrix.postScale scaleX scaleY t.1 t.2 }
            else st
          (st,
            if c.hasListeners EventName.zoom then [Effect.notify EventName.zoom]
            else [])
        else if st.mTouchMode = TouchMode.X_ZOOM ∧ c.scaleXEnabled then
          let st := { st with mLastGesture := ChartGesture.X_ZOOM }
          let t := getTrans c st st.mTouchPointCenterX st.mTouchPointCenterY
          let scaleX := event.extraData.scale
          let isZoomingOut : Bool := decide (scaleX < 1)
          let canZoomMoreX :=
            if isZoomingOut then c.canZoomOutMoreX else c.canZoomInMoreX
          let st :=
            if canZoomMoreX then
              { st with mMatrix := st.mSavedMatrix.postScale scaleX 1 t.1 t.2 }
            else st
          (st,
            if c.hasListeners EventName.zoom then [Effect.notify EventName.zoom]
            else [])
        else if st.mTouchMode = TouchMode.Y_ZOOM ∧ c.scaleYEnabled then
          let st := { st with mLastGesture := ChartGesture.Y_ZOOM }
          let t := getTrans c st st.mTouchPointCenterX st.mTouchPointCenterY
          let scaleY := event.extraData.scale
          let isZoomingOut : Bool := decide (scaleY < 1)
          let canZoomMoreY :=
            if isZoomingOut then c.canZoomOutMoreY else c.canZoomInMoreY
          let st :=
            if canZoomMoreY then
              { st with mMatrix := st.mSavedMatrix.postScale 1 scaleY t.1 t.2 }
            else st
          (st,
            if c.hasListeners EventName.zoom then [Effect.notify EventName.zoom]
            else [])
        else (st, [])
      (branch.1, pinchEffects ++ branch.2 ++ [Effect.refreshViewport])
    else (st, pinchEffects)

/-- `onDoubleTapGesture` (lines 558–576). -/
def onDoubleTapGesture (c : Chart) (st : ListenerState) (event : EventData) :
    ListenerState × List Effect :=
  if event.state = GestureState.END ∧ event.prevState = GestureState.ACTIVE then
    let effects :=
      if c.hasListeners EventName.doubleTap then
        [Effect.notify EventName.doubleTap]
      else []
    if c.doubleTapToZoomEnabled ∧ 0 < Data.getEntryCount c.data then
      let trans := getTrans c st event.extraData.x event.extraData.y
      (st,
        effects ++
          [Effect.zoom (if c.scaleXEnabled then (1.4 : ℚ) else 1)
            (if c.scaleYEnabled then (1.4 : ℚ) else 1) trans.1 trans.2])
    else (st, effects)
  else (st, [])

/-- The `chart.zoom` invocations among a handler's effects. -/
def zoomCalls (effects : List Effect) : List (ℚ × ℚ × ℚ × ℚ) :=
  effects.filterMap
    (fun eff =>
      match eff with
      | Effect.zoom a b px py => some (a, b, px, py)
      | _ => none)

/-! ### C3: drag deltas always apply to the saved matrix -/

lemma dragMove_mSavedMatrix (c : Chart) (st : ListenerState) (ev : ℚ × ℚ) :
    (dragMove c st ev).mSavedMatrix = st.mSavedMatrix := by
  simp [dragMove, performDrag]

lemma dragMove_mClosest (c : Chart) (st : ListenerState) (ev : ℚ × ℚ) :
    (dragMove c st ev).mClosestDataSetToTouch = st.mClosestDataSetToTouch := by
  simp [dragMove, performDrag]

lemma inverted_congr (c : Chart) {st1 st2 : ListenerState}
    (h : st1.mClosestDataSetToTouch = st2.mClosestDataSetToTouch) :
    inverted c st1 = inverted c st2 := by
  unfold inverted
  rw [h]

lemma dragMove_mMatrix (c : Chart) (st : ListenerState) (dx dy : ℚ) :
    (dragMove c st (dx, dy)).mMatrix
      = st.mSavedMatrix.postTranslate dx (if inverted c st then -dy else dy) := by
  simp [dragMove, performDrag, inverted]

/-- C3: for every sequence of drag-move events within one gesture, the live
matrix after the last event equals the gesture-start saved matrix composed
with a single translation by the last event's cumulative `(dx, dy)` (`dy`
negated when the axis is inverted) — never a composition of per-event
deltas — and the saved matrix itself is untouched. -/
theorem c3_drag_translates_saved_matrix (c : Chart) (st : ListenerState)
    (evs : List (ℚ × ℚ)) (dx dy : ℚ) :
    ((evs ++ [(dx, dy)]).foldl (dragMove c) st).mMatrix
        = st.mSavedMatrix.postTranslate dx
            (if inverted c st then -dy else dy) ∧
    ((evs ++ [(dx, dy)]).foldl (dragMove c) st).mSavedMatrix
        = st.mSavedMatrix := by
  induction evs generalizing st with
  | nil =>
      simp only [List.nil_append, List.foldl_cons, List.foldl_nil]
      exact ⟨dragMove_mMatrix c st dx dy, dragMove_mSavedMatrix c st (dx, dy)⟩
  | cons p rest ih =>
      simp only [List.cons_append, List.foldl_cons]
      obtain ⟨ih1, ih2⟩ := ih (dragMove c st p)
      refine ⟨?_, ih2.trans (dragMove_mSavedMatrix c st p)⟩
      rw [ih1, dragMove_mSavedMatrix c st p,
        inverted_congr c (dragMove_mClosest c st p)]

/-! ### C4: blocked pinch zoom-out leaves the matrix unchanged -/

/-- C4: on a pinch-move event in PINCH_ZOOM mode with scale factor < 1,
when neither axis can zoom out further, the transform matrix is left
unchanged (no scale applied) and the touch mode remains PINCH_ZOOM; the
handler still completes normally (it is a total function emitting its
usual notifications). -/
theorem c4_pinch_zoom_out_blocked (c : Chart) (st : ListenerState)
    (event : EventData)
    (hmode : st.mTouchMode = TouchMode.PINCH_ZOOM)
    (hscale : event.extraData.scale < 1)
    (hx : c.canZoomOutMoreX = false)
    (hy : c.canZoomOutMoreY = false)
    (hactive : event.state = GestureState.ACTIVE) :
    (onPinchGestureTouch c st event).1.mMatrix = st.mMatrix ∧
    (onPinchGestureTouch c st event).1.mTouchMode = TouchMode.PINCH_ZOOM := by
  unfold onPinchGestureTouch
  by_cases hguard : (!c.scaleXEnabled && !c.scaleYEnabled) = true
  · rw [if_pos hguard]
    exact ⟨rfl, hmode⟩
  · rw [if_neg hguard]
    rw [if_neg (show ¬(event.state ≠ GestureState.ACTIVE) by simp [hactive])]
    rw [if_pos (Or.inr (Or.inr hmode))]
    rw [if_pos hmode]
    constructor <;> simp [hscale, hx, hy, hmode]

/-! ### C5: pinch-gesture-begin mode decision -/

/-- C5: on pinch-gesture-begin (state ACTIVE) with at least one scale axis
enabled, the touch mode is set to PINCH_ZOOM when pinch-zoom is enabled;
otherwise to X_ZOOM/Y_ZOOM when exactly one of X/Y scaling is enabled;
otherwise (both enabled) to X_ZOOM when the initial inter-finger x-distance
exceeds the y-distance and to Y_ZOOM otherwise. -/
theorem c5_pinch_begin_mode (c : Chart) (st : ListenerState)
    (event : EventData)
    (hen : c.scaleXEnabled = true ∨ c.scaleYEnabled = true)
    (hactive : event.state = GestureState.ACTIVE) :
    (c.pinchZoomEnabled = true →
      (onPinchGestureState c st event).1.mTouchMode = TouchMode.PINCH_ZOOM) ∧
    (c.pinchZoomEnabled = false → c.scaleXEnabled = true →
      c.scaleYEnabled = false →
      (onPinchGestureState c st event).1.mTouchMode = TouchMode.X_ZOOM) ∧
    (c.pinchZoomEnabled = false → c.scaleXEnabled = false →
      c.scaleYEnabled = true →
      (onPinchGestureState c st event).1.mTouchMode = TouchMode.Y_ZOOM) ∧
    (c.pinchZoomEnabled = false → c.scaleXEnabled = true →
      c.scaleYEnabled = true →
      ((getXDist event > getYDist event →
        (onPinchGestureState c st event).1.mTouchMode = TouchMode.X_ZOOM) ∧
      (¬(getXDist event > getYDist event) →
        (onPinchGestureState c st event).1.mTouchMode = TouchMode.Y_ZOOM))) := by
  have hguard : ¬((!c.scaleXEnabled && !c.scaleYEnabled) = true) := by
    rcases hen with h | h <;> simp [h]
  refine ⟨?_, ?_, ?_, ?_⟩
  · intro hp
    unfold onPinchGestureState
    rw [if_neg hguard, hactive]
    simp [hp]
  · intro hp hsx hsy
    unfold onPinchGestureState
    rw [if_neg hguard, hactive]
    simp [hp, hsx, hsy]
  · intro hp hsx hsy
    unfold onPinchGestureState
    rw [if_neg hguard, hactive]
    simp [hp, hsx, hsy]
  · intro hp hsx hsy
    constructor
    · intro hgt
      unfold onPinchGestureState
      rw [if_neg hguard, hactive]
      simp [hp, hsx, hsy, hgt]
    · intro hle
      unfold onPinchGestureState
      rw [if_neg hguard, hactive]
      simp [hp, hsx, hsy, hle]

/-- A concrete chart configuration for the listener witnesses: both scale
axes enabled, pinch-zoom disabled, zoom-out exhausted, double-tap zoom
enabled, one data entry present. -/
def wChart : Chart :=
  { dragEnabled := true, dragXEnabled := true, dragYEnabled := true
    scaleXEnabled := true, scaleYEnabled := true, pinchZoomEnabled := false
    doubleTapToZoomEnabled := true, highlightPerDragEnabled := false
    highlightPerTapEnabled := false
    canZoomInMoreX := true, canZoomOutMoreX := false
    canZoomInMoreY := true, canZoomOutMoreY := false
    anyAxisInverted := false, invertedLeft := false, invertedRight := false
    offsetLeft := 10, offsetTop := 10, offsetBottom := 10, chartHeight := 100
    listeners := [EventName.zoom]
    data := Data.mkChartData
      [{ entries := [{ x := 1, y := 2 }],
         axisDependency := AxisDependency.LEFT }] }

/-- A concrete listener state in PINCH_ZOOM mode. -/
def wState : ListenerState :=
  { mMatrix :=
      { scaleX := 2, skewX := 0, transX := 3, skewY := 0, scaleY := 2, transY := 4 }
    mSavedMatrix :=
      { scaleX := 1, skewX := 0, transX := 0, skewY := 0, scaleY := 1, transY := 0 }
    mTouchMode := TouchMode.PINCH_ZOOM
    mLastGesture := ChartGesture.NONE
    mSavedXDist := 1, mSavedYDist := 1
    mTouchPointCenterX := 50, mTouchPointCenterY := 50
    mDecelerationVelocityX := 0, mDecelerationVelocityY := 0
    mClosestDataSetToTouch := none }

/-- A concrete pinch-move event with scale 0.5 (zooming out). -/
def wPinchEvent : EventData :=
  { state := GestureState.ACTIVE
    prevState := GestureState.BEGAN
    extraData :=
      { x := 50, y := 50, focalX := 50, focalY := 50, scale := 1 / 2
        translationX := 0, translationY := 0, velocityX := 0, velocityY := 0
        numberOfPointers := 2, positions := [0, 0, 30, 20] } }

/-- C4 witness: with zoom-out exhausted on both axes, the pinch-move with
scale 1/2 leaves the concrete matrix unchanged and the mode PINCH_ZOOM. -/
theorem c4_witness :
    (onPinchGestureTouch wChart wState wPinchEvent).1.mMatrix
        = wState.mMatrix ∧
    (onPinchGestureTouch wChart wState wPinchEvent).1.mTouchMode
        = TouchMode.PINCH_ZOOM :=
  c4_pinch_zoom_out_blocked wChart wState wPinchEvent rfl
    (show (1 : ℚ) / 2 < 1 by norm_num) rfl rfl rfl

/-- C5 witness: with pinch-zoom disabled, both axes scalable and
inter-finger x-distance 30 exceeding y-distance 20, the begin event picks
X_ZOOM. -/
theorem c5_witness :
    (onPinchGestureState wChart wState wPinchEvent).1.mTouchMode
      = TouchMode.X_ZOOM :=
  ((c5_pinch_begin_mode wChart wState wPinchEvent (Or.inl rfl) rfl).2.2.2
    rfl rfl rfl).1 (by norm_num [getXDist, getYDist, wPinchEvent, List.getD])

/-! ### C6: double-tap zoom -/

/-- C6: on a double-tap end event (state END after ACTIVE), `chart.zoom` is
invoked exactly once with factor 1.4 on each scale-enabled axis (1 on a
disabled axis) and pivot `getTrans` of the tap pixel — provided double-tap
zoom is enabled and the data is non-empty; otherwise no zoom is invoked. -/
theorem c6_double_tap_zoom (c : Chart) (st : ListenerState)
    (event : EventData)
    (hend : event.state = GestureState.END)
    (hprev : event.prevState = GestureState.ACTIVE) :
    zoomCalls (onDoubleTapGesture c st event).2
      = if c.doubleTapToZoomEnabled = true ∧ 0 < Data.getEntryCount c.data then
          [((if c.scaleXEnabled then (1.4 : ℚ) else 1),
            (if c.scaleYEnabled then (1.4 : ℚ) else 1),
            (getTrans c st event.extraData.x event.extraData.y).1,
            (getTrans c st event.extraData.x event.extraData.y).2)]
        else [] := by
  unfold onDoubleTapGesture
  rw [if_pos ⟨hend, hprev⟩]
  by_cases hz : (c.doubleTapToZoomEnabled = true ∧ 0 < Data.getEntryCount c.data)
  · rw [if_pos hz, if_pos hz]
    by_cases hl : c.hasListeners EventName.doubleTap = true <;>
      simp [hl, zoomCalls]
  · rw [if_neg hz, if_neg hz]
    by_cases hl : c.hasListeners EventName.doubleTap = true <;>
      simp [hl, zoomCalls]

/-- A concrete double-tap end event at pixel (50, 50). -/
def wDoubleTapEvent : EventData :=
  { state := GestureState.END
    prevState := GestureState.ACTIVE
    extraData :=
      { x := 50, y := 50, focalX := 50, focalY := 50, scale := 1
        translationX := 0, translationY := 0, velocityX := 0, velocityY := 0
        numberOfPointers := 1, positions := [50, 50] } }

/-- C6 witness: on the concrete chart (double-tap zoom enabled, one entry,
both axes scalable), the double tap at (50, 50) requests exactly one zoom
with factors 1.4/1.4 and the translated pivot. -/
theorem c6_witness :
    zoomCalls (onDoubleTapGesture wChart wState wDoubleTapEvent).2
      = [((1.4 : ℚ), (1.4 : ℚ),
          (getTrans wChart wState 50 50).1, (getTrans wChart wState 50 50).2)] := by
  have h := c6_double_tap_zoom wChart wState wDoubleTapEvent rfl rfl
  rw [h, if_pos ⟨rfl, by decide⟩]
  rfl

end Listener

end Charting
